import Mathlib

/-!
Verification of the xreal-xr-go device-communication core against its
natural-language specification.

The Go source is shallowly embedded: byte slices become `List Nat` (each
entry a byte value), `uint8`/`uint32`/`uint64` arithmetic is `Nat` with
explicit `% 2 ^ w` where overflow matters, fallible operations return
`Option`/custom result types, and a Go runtime panic (out-of-range index
or slice) is an explicit `panic` constructor of the result type.
-/

set_option maxRecDepth 20000

namespace XrealXR

/-! # Definitions -/

/-- Result of running a piece of Go code that may return a value, return an
error, or crash with a runtime panic (index / slice out of range). -/
inductive GoResult (α : Type) where
  | ok (a : α)
  | error
  | panic
  deriving DecidableEq, Repr

/-- Go slice expression `data[lo:hi]`: defined (as the corresponding
sub-list) exactly when `lo ≤ hi ∧ hi ≤ len(data)`, a runtime panic
otherwise. -/
def goSlice (data : List Nat) (lo hi : Nat) : Option (List Nat) :=
  if lo ≤ hi ∧ hi ≤ data.length then some ((data.take hi).drop lo) else none

/-- Go `copy(result[:], buf)` into a zero-initialised `[64]byte`: the first
64 bytes of `buf`, zero-padded to exactly 64 bytes. -/
def pad64 (l : List Nat) : List Nat :=
  l.take 64 ++ List.replicate (64 - l.length) 0

/-- `bytes.Split(data, []byte{sep})`: splits on every occurrence of the
separator byte, keeping empty fields; `n` separators yield `n+1` parts. -/
def goSplit (sep : Nat) : List Nat → List (List Nat)
  | [] => [[]]
  | b :: rest =>
    if b = sep then [] :: goSplit sep rest
    else
      match goSplit sep rest with
      | p :: ps => (b :: p) :: ps
      | [] => [[b]]

/-! ### Packet data model (src/device/device.go) -/

/-- Go `PacketType`; `UNKNOWN` is the zero value. -/
inductive PacketType where
  | UNKNOWN
  | CRC_ERROR
  | COMMAND
  | RESPONSE
  | MCU
  | HEART_BEAT_RESPONSE
  deriving DecidableEq, Repr

/-- Go `CommandInstruction` (src/device/light_command.go); `CMD_UKNOWN` is
the zero value (the source spells it that way). -/
inductive CommandInstruction where
  | CMD_UKNOWN
  | CMD_GET_BRIGHTNESS_LEVEL
  | CMD_SET_BRIGHTNESS_LEVEL
  | CMD_GET_DISPLAY_HDCP
  | CMD_GET_DISPLAY_MODE
  | CMD_SET_DISPLAY_MODE
  | CMD_GET_AMBIENT_LIGHT_ENABLED
  | CMD_ENABLE_AMBIENT_LIGHT
  | CMD_GET_MAGNETOMETER_ENABLED
  | CMD_ENABLE_MAGNETOMETER
  | CMD_GET_VSYNC_ENABLED
  | CMD_ENABLE_VSYNC
  | CMD_GET_TEMPERATURE_ENABLED
  | CMD_ENABLE_TEMPERATURE
  | CMD_ENABLE_RGB_CAMERA
  | CMD_GET_GLASS_ACTIVATED
  | CMD_SET_GLASS_ACTIVATION
  | CMD_GET_GLASS_ACTIVATION_TIME
  | CMD_HEART_BEAT
  | CMD_GET_NREAL_FW_STRING
  | CMD_GET_FIRMWARE_VERSION
  | CMD_GET_DISPLAY_FIRMWARE
  | CMD_GET_SERIAL_NUMBER
  | CMD_GET_STOCK_FIRMWARE_VERSION
  | CMD_SET_MAX_BRIGHTNESS_LEVEL
  | CMD_SET_SDK_WORKS
  | MCU_EVENT_AMBIENT_LIGHT
  | MCU_EVENT_KEY_PRESS
  | MCU_EVENT_MAGNETOMETER
  | MCU_EVENT_PROXIMITY
  | MCU_EVENT_TEMPERATURE_A
  | MCU_EVENT_TEMPERATURE_B
  | MCU_EVENT_VSYNC
  | OV580_ENABLE_IMU_STREAM
  | OV580_GET_CALIBRATION_FILE_LENGTH
  | OV580_GET_CALIBRATION_FILE_PART
  deriving DecidableEq, Repr

/-- Go `Command`: the wire pair plus the hidden optional `instruction` tag
(`ctype`/`cid` stand for the Go fields `Type`/`ID`, whose names Lean
reserves). -/
structure Command where
  ctype : Nat
  cid : Nat
  instruction : CommandInstruction := .CMD_UKNOWN
  deriving DecidableEq, Repr

/-- Go `Packet`. `none` models a nil pointer/slice; `message` is the Go
string as bytes (empty by default). -/
structure Packet where
  ptype : PacketType := .UNKNOWN
  command : Option Command := none
  payload : Option (List Nat) := none
  timestamp : Option (List Nat) := none
  message : List Nat := []
  deriving DecidableEq, Repr

/-- Outcome of `Packet.Deserialize`: success with the filled packet, a
returned error with whatever fields were set before the `return`, or a
runtime panic (out-of-range index). -/
inductive DeserResult where
  | ok (pkt : Packet)
  | fail (pkt : Packet)
  | panic
  deriving DecidableEq, Repr

/-- Index of the last occurrence of byte `3`, if any (helper for the
`for i, b := range data { if b == 3 { endIdx = i } }` scan). -/
def lastIdx3Aux : List Nat → Option Nat
  | [] => none
  | b :: rest =>
    match lastIdx3Aux rest with
    | some j => some (j + 1)
    | none => if b = 3 then some 0 else none

/-- The scan in `Deserialize`: the last index holding `0x03`, defaulting to
`len(data) - 1` when the byte never occurs. -/
def lastIdx3 (data : List Nat) : Nat :=
  (lastIdx3Aux data).getD (data.length - 1)

/-- Tail of `Packet.Deserialize` from `parts := bytes.Split(...)` on
(src/device/device.go lines 200-232), operating on the re-sliced interior
`data[2 : endIdx-1]`. -/
def classifyParts (now : List Nat) (interior : List Nat) : DeserResult :=
  let parts := goSplit 0x3a interior
  if parts.length < 5 then .fail {}
  else
    match (parts.getD 0 []).head?, (parts.getD 1 []).head? with
    | some t, some i =>
      let cmd : Command := { ctype := t, cid := i }
      let payload := parts.getD 2 []
      if t = 0x32 ∨ t = 0x34 ∨ t = 0x41 ∨ t = 0x55 then
        if t = 0x41 ∧ i = 0x4b then
          .ok { ptype := .HEART_BEAT_RESPONSE, command := some cmd,
                payload := some payload,
                timestamp := some (parts.getD (parts.length - 2) []) }
        else
          .ok { ptype := .RESPONSE, command := some cmd,
                payload := some payload,
                timestamp := some (parts.getD (parts.length - 2) []) }
      else if t = 0x31 ∨ t = 0x33 ∨ t = 0x40 ∨ t = 0x54 then
        .ok { ptype := .COMMAND, command := some cmd,
              payload := some payload,
              timestamp := some (parts.getD (parts.length - 2) []) }
      else if t = 0x35 then
        if i = 0x4b ∨ i = 0x4c ∨ i = 0x4d ∨ i = 0x50 ∨ i = 0x53 then
          .ok { ptype := .MCU, command := some cmd,
                payload := some payload, message := interior,
                timestamp := some now }
        else
          .ok { ptype := .UNKNOWN, command := some cmd,
                payload := some payload, message := interior,
                timestamp := some now }
      else
        .ok { ptype := .UNKNOWN, command := some cmd,
              payload := some payload, message := interior,
              timestamp := some now }
    | _, _ => .panic

/-- Go `Packet.Deserialize` (src/device/device.go lines 172-233).  `now`
supplies the bytes `getTimestampNow()` would produce at this call. -/
def deserialize (now : List Nat) (data : List Nat) : DeserResult :=
  match data with
  | [] => .panic
  | d0 :: _ =>
    if d0 = 0x43 then .ok { ptype := .CRC_ERROR, message := data }
    else if d0 ≠ 2 then .fail { ptype := .UNKNOWN, message := data }
    else
      let endIdx := lastIdx3 data
      if data.getD endIdx 0 ≠ 3 then .fail {}
      else
        match goSlice data 2 (endIdx - 1) with
        | none => .panic
        | some interior => classifyParts now interior

/-! ### CRC-32 and serialization -/

/-- One bit step of reflected CRC-32 with polynomial `0xEDB88320`. -/
def crc32BitStep (c : Nat) : Nat :=
  if c % 2 = 1 then (c / 2) ^^^ 0xEDB88320 else c / 2

/-- One byte step: fold the byte into the low bits, then eight bit steps. -/
def crc32ByteStep (c b : Nat) : Nat :=
  crc32BitStep^[8] (c ^^^ (b % 256))

/-- Modelled from the spec: the repository's `crc` package source
(`crc/crc.go`) is absent from src (only its test is present); §4.1 of the
spec fixes CRC-32 as the classic reflected polynomial `0xEDB88320` with
initial value and final XOR `0xFFFFFFFF`. -/
def crc32 (data : List Nat) : Nat :=
  (data.foldl crc32ByteStep 0xFFFFFFFF) ^^^ 0xFFFFFFFF

/-- Lowercase ASCII hex digit of a nibble: `'0'..'9'` then `'a'..'f'`. -/
def hexDigitByte (d : Nat) : Nat :=
  if d < 10 then 48 + d else 87 + d

/-- Go `fmt.Fprintf(&buf, "%08x", crc)` for a `uint32`: exactly eight
lowercase hex digit bytes, most significant first. -/
def hex8 (n : Nat) : List Nat :=
  (List.range 8).reverse.map (fun k => hexDigitByte (n / 16 ^ k % 16))

/-- Go `Packet.Serialize` (src/device/device.go lines 236-271).  The
64-byte array result is the padded byte list; `error` is a returned Go
error, `panic` the nil dereference of `pkt.Command`. -/
def serialize (pkt : Packet) : GoResult (List Nat) :=
  if pkt.ptype = .CRC_ERROR ∨ pkt.ptype = .UNKNOWN ∨ pkt.ptype = .MCU then
    if pkt.message ≠ [] then .ok (pad64 pkt.message) else .error
  else
    match pkt.command with
    | none => .panic
    | some cmd =>
      if cmd.ctype % 256 = 0 ∨ cmd.cid % 256 = 0 ∨ pkt.payload = none ∨
          pkt.timestamp = none then .error
      else
        let preamble := [2, 0x3a, cmd.ctype % 256, 0x3a, cmd.cid % 256, 0x3a]
          ++ pkt.payload.getD [] ++ [0x3a] ++ pkt.timestamp.getD [] ++ [0x3a]
        .ok (pad64 (preamble ++ hex8 (crc32 preamble) ++ [0x3a, 3]))

/-! ### Command registry (src/device/light_command.go) -/

/-- Known firmware strings (src/constant/constant.go). -/
def FIRMWARE_05_5_08_059 : String := "05.5.08.059_20230518"

def FIRMWARE_05_1_08_021 : String := "05.1.08.021_20221114"

/-- Go `GetFirmwareIndependentCommand`: the single firmware-independent
instruction → `(type, id)` table; the found command is tagged with the
instruction before being returned. -/
def getFirmwareIndependentCommand (instruction : CommandInstruction) :
    Option Command :=
  match instruction with
  | .CMD_GET_NREAL_FW_STRING => some ⟨0x33, 0x56, instruction⟩
  | .CMD_HEART_BEAT => some ⟨0x40, 0x4b, instruction⟩
  | .CMD_GET_FIRMWARE_VERSION => some ⟨0x33, 0x35, instruction⟩
  | .CMD_GET_DISPLAY_MODE => some ⟨0x33, 0x33, instruction⟩
  | .CMD_SET_DISPLAY_MODE => some ⟨0x31, 0x33, instruction⟩
  | .CMD_GET_AMBIENT_LIGHT_ENABLED => some ⟨0x33, 0x4c, instruction⟩
  | .CMD_ENABLE_AMBIENT_LIGHT => some ⟨0x31, 0x4c, instruction⟩
  | .CMD_GET_VSYNC_ENABLED => some ⟨0x33, 0x4e, instruction⟩
  | .CMD_ENABLE_VSYNC => some ⟨0x31, 0x4e, instruction⟩
  | .CMD_GET_MAGNETOMETER_ENABLED => some ⟨0x33, 0x55, instruction⟩
  | .CMD_ENABLE_MAGNETOMETER => some ⟨0x31, 0x55, instruction⟩
  | .CMD_GET_TEMPERATURE_ENABLED => some ⟨0x33, 0x60, instruction⟩
  | .CMD_ENABLE_TEMPERATURE => some ⟨0x31, 0x60, instruction⟩
  | .CMD_GET_GLASS_ACTIVATED => some ⟨0x33, 0x65, instruction⟩
  | .CMD_SET_GLASS_ACTIVATION => some ⟨0x31, 0x65, instruction⟩
  | .CMD_GET_GLASS_ACTIVATION_TIME => some ⟨0x33, 0x66, instruction⟩
  | .CMD_ENABLE_RGB_CAMERA => some ⟨0x31, 0x68, instruction⟩
  | .CMD_GET_BRIGHTNESS_LEVEL => some ⟨0x33, 0x31, instruction⟩
  | .CMD_SET_BRIGHTNESS_LEVEL => some ⟨0x31, 0x31, instruction⟩
  | .CMD_GET_SERIAL_NUMBER => some ⟨0x33, 0x43, instruction⟩
  | .CMD_GET_STOCK_FIRMWARE_VERSION => some ⟨0x33, 0x30, instruction⟩
  | .CMD_SET_SDK_WORKS => some ⟨0x40, 0x33, instruction⟩
  | .MCU_EVENT_AMBIENT_LIGHT => some ⟨0x35, 0x4c, instruction⟩
  | .MCU_EVENT_KEY_PRESS => some ⟨0x35, 0x4b, instruction⟩
  | .MCU_EVENT_MAGNETOMETER => some ⟨0x35, 0x4d, instruction⟩
  | .MCU_EVENT_PROXIMITY => some ⟨0x35, 0x50, instruction⟩
  | .MCU_EVENT_TEMPERATURE_A => some ⟨0x35, 0x52, instruction⟩
  | .MCU_EVENT_TEMPERATURE_B => some ⟨0x35, 0x54, instruction⟩
  | .MCU_EVENT_VSYNC => some ⟨0x35, 0x53, instruction⟩
  | .OV580_ENABLE_IMU_STREAM => some ⟨0x02, 0x19, instruction⟩
  | .OV580_GET_CALIBRATION_FILE_LENGTH => some ⟨0x02, 0x14, instruction⟩
  | .OV580_GET_CALIBRATION_FILE_PART => some ⟨0x02, 0x15, instruction⟩
  | _ => none

/-- The firmware-dependent switch inside `xrealLightMCU.getCommand`
(src/device/light_command.go lines 239-265), keyed on the instruction and
the current `glassFirmware` string. -/
def firmwareDependentCommand (glassFirmware : String)
    (instruction : CommandInstruction) : Option Command :=
  match instruction with
  | .CMD_GET_DISPLAY_HDCP =>
    if glassFirmware = FIRMWARE_05_5_08_059 then some ⟨0x33, 0x48, instruction⟩
    else if glassFirmware = FIRMWARE_05_1_08_021 then
      some ⟨0x33, 0x34, instruction⟩
    else none
  | .CMD_SET_MAX_BRIGHTNESS_LEVEL =>
    if glassFirmware = FIRMWARE_05_5_08_059 then some ⟨0x31, 0x32, instruction⟩
    else if glassFirmware = FIRMWARE_05_1_08_021 then
      some ⟨0x33, 0x32, instruction⟩
    else none
  | .CMD_GET_DISPLAY_FIRMWARE =>
    if glassFirmware = FIRMWARE_05_5_08_059 then some ⟨0x33, 0x34, instruction⟩
    else none
  | _ => none

/-- Go `xrealLightMCU.getCommand`: the firmware-independent table is
consulted first, then the firmware-dependent switch. -/
def getCommand (glassFirmware : String) (instruction : CommandInstruction) :
    Option Command :=
  match getFirmwareIndependentCommand instruction with
  | some command => some command
  | none => firmwareDependentCommand glassFirmware instruction

/-- Formalisation of the spec's resolution order ("instruction + current
firmware → override table; on miss, independent table"), written from the
spec's words for comparison with `getCommand`. -/
def specResolveCommand (glassFirmware : String)
    (instruction : CommandInstruction) : Option Command :=
  match firmwareDependentCommand glassFirmware instruction with
  | some command => some command
  | none => getFirmwareIndependentCommand instruction

/-- Go `Command.Equals` against an optional (possibly nil) command. -/
def commandEquals (cmd : Command) (another : Option Command) : Bool :=
  match another with
  | none => false
  | some c => decide (cmd.ctype = c.ctype) && decide (cmd.cid = c.cid)

/-- Go `Command.EqualsInstruction`. -/
def equalsInstruction (cmd : Command) (instruction : CommandInstruction) :
    Bool :=
  if cmd.instruction = .CMD_UKNOWN then
    commandEquals cmd (getFirmwareIndependentCommand instruction)
  else decide (cmd.instruction = instruction)

/-! ### MCU read-drain loop and response matching (src/device/light_mcu.go) -/

/-- Go `strings.Index(s, c)` for a one-byte needle: index of the first
occurrence, or `-1`. -/
def goIndexAux (c : Nat) : List Nat → Option Nat
  | [] => none
  | b :: rest => if b = c then some 0 else (goIndexAux c rest).map (· + 1)

def goIndexOf (s : List Nat) (c : Nat) : Int :=
  match goIndexAux c s with
  | some j => (j : Int)
  | none => -1

/-- Go slice expression with `int` indices as they appear in the
magnetometer parser; panics unless `0 ≤ lo ≤ hi ≤ len`. -/
def goSliceInt (s : List Nat) (lo hi : Int) : Option (List Nat) :=
  if 0 ≤ lo ∧ lo ≤ hi ∧ hi ≤ (s.length : Int) then
    some ((s.take hi.toNat).drop lo.toNat)
  else none

/-- Value of a non-empty all-decimal-digit byte string. -/
def decDigitsVal (l : List Nat) : Option Nat :=
  if l = [] then none
  else
    l.foldl
      (fun acc b =>
        match acc with
        | none => none
        | some v => if 48 ≤ b ∧ b ≤ 57 then some (v * 10 + (b - 48)) else none)
      (some 0)

/-- Go `strconv.Atoi`: optional sign then decimal digits.  The `int64`
overflow error is not modelled; every payload in scope is far below it. -/
def goAtoi (s : List Nat) : Option Int :=
  match s with
  | 0x2b :: rest => (decDigitsVal rest).map (fun v => (v : Int))
  | 0x2d :: rest => (decDigitsVal rest).map (fun v => -(v : Int))
  | _ => (decDigitsVal s).map (fun v => (v : Int))

/-- Go `strconv.ParseUint(s, 10, 16)`: digits only, range-checked. -/
def goParseUint16 (s : List Nat) : Option Nat :=
  match decDigitsVal s with
  | some v => if v < 65536 then some v else none
  | none => none

/-- The magnetometer branch of `readAndProcessPackets`
(src/device/light_mcu.go lines 269-301): locate `x`/`y`/`z`, slice between
them, `Atoi` each piece.  `error` is the log-and-drop `continue`; `panic`
is an out-of-range slice (e.g. a missing marker giving index `-1`). -/
def parseMagnetometer (reading : List Nat) : GoResult (Int × Int × Int) :=
  let xIdx := goIndexOf reading 0x78
  let yIdx := goIndexOf reading 0x79
  let zIdx := goIndexOf reading 0x7a
  match goSliceInt reading (xIdx + 1) yIdx with
  | none => .panic
  | some sx =>
    match goAtoi sx with
    | none => .error
    | some x =>
      match goSliceInt reading (yIdx + 1) zIdx with
      | none => .panic
      | some sy =>
        match goAtoi sy with
        | none => .error
        | some y =>
          match goSliceInt reading (zIdx + 1) (reading.length : Int) with
          | none => .panic
          | some sz =>
            match goAtoi sz with
            | none => .error
            | some z => .ok (x, y, z)

/-- One observable handler invocation fired by the MCU read-drain loop.
Key and proximity events use the Go enum numerals (0 unknown, 1 up/near,
2 down/far); the magnetometer vector carries the packet's raw timestamp
bytes (wall-clock decoding is not modelled). -/
inductive HandlerEvent where
  | keyPress (k : Nat)
  | proximity (p : Nat)
  | ambientLight (v : Nat)
  | vsync (payload : List Nat)
  | temperature (payload : List Nat)
  | magnetometer (x y z : Int) (timestamp : Option (List Nat))
  deriving DecidableEq, Repr

/-- The `PACKET_TYPE_MCU` dispatch block of `readAndProcessPackets`
(src/device/light_mcu.go lines 238-306): at most one handler invocation
per packet; `error` is never produced, `panic` mirrors the magnetometer
slice panic. -/
def dispatchMCU (pkt : Packet) : GoResult (List HandlerEvent) :=
  match pkt.command with
  | none => .panic
  | some cmd =>
    let payload := pkt.payload.getD []
    if equalsInstruction cmd .MCU_EVENT_KEY_PRESS then
      if payload = [0x55, 0x50] then .ok [.keyPress 1]
      else if payload = [0x44, 0x4e] then .ok [.keyPress 2]
      else .ok [.keyPress 0]
    else if equalsInstruction cmd .MCU_EVENT_PROXIMITY then
      if payload = [0x61, 0x77, 0x61, 0x79] then .ok [.proximity 2]
      else if payload = [0x6e, 0x65, 0x61, 0x72] then .ok [.proximity 1]
      else .ok [.proximity 0]
    else if equalsInstruction cmd .MCU_EVENT_AMBIENT_LIGHT then
      match goParseUint16 payload with
      | some v => .ok [.ambientLight v]
      | none => .ok []
    else if equalsInstruction cmd .MCU_EVENT_VSYNC then
      .ok [.vsync payload]
    else if equalsInstruction cmd .MCU_EVENT_TEMPERATURE_A ∨
        equalsInstruction cmd .MCU_EVENT_TEMPERATURE_B then
      .ok [.temperature payload]
    else if equalsInstruction cmd .MCU_EVENT_MAGNETOMETER then
      match parseMagnetometer payload with
      | .panic => .panic
      | .error => .ok []
      | .ok (x, y, z) => .ok [.magnetometer x y z pkt.timestamp]
    else .ok []

/-- Observable output of one read batch: packets pushed onto the
pending-response channel, and handler invocations, both in order. -/
structure BatchOut where
  sends : List Packet
  events : List HandlerEvent
  deriving DecidableEq, Repr

/-- The per-buffer loop of `readAndProcessPackets`
(src/device/light_mcu.go lines 206-309).  `fuel` is the `i < 32` loop
bound; an exhausted buffer list models the read timing out, which ends the
batch with the deliveries made so far. -/
def processBuffers (probe : Nat × Nat) (initialized : Bool) (now : List Nat) :
    Nat → List (List Nat) → GoResult BatchOut
  | _, [] => .ok ⟨[], []⟩
  | 0, _ => .ok ⟨[], []⟩
  | fuel + 1, buf :: rest =>
    match deserialize now (pad64 buf) with
    | .panic => .panic
    | .fail _ => processBuffers probe initialized now fuel rest
    | .ok p =>
      if p.ptype = .CRC_ERROR ∨ p.ptype = .HEART_BEAT_RESPONSE then
        processBuffers probe initialized now fuel rest
      else
        match p.command with
        | none => .panic
        | some cmd =>
          if cmd.ctype = (probe.1 + 1) % 256 ∧ cmd.cid = probe.2 then
            .ok ⟨[], []⟩
          else if p.ptype = .RESPONSE then
            match processBuffers probe initialized now fuel rest with
            | .ok out => .ok ⟨p :: out.sends, out.events⟩
            | r => r
          else if p.ptype = .MCU ∧ initialized then
            match dispatchMCU p with
            | .panic => .panic
            | .error => .panic
            | .ok evs =>
              match processBuffers probe initialized now fuel rest with
              | .ok out => .ok ⟨out.sends, evs ++ out.events⟩
              | r => r
          else processBuffers probe initialized now fuel rest

/-- Go `xrealLightMCU.readAndProcessPackets`: sends the throwaway
`CMD_GET_NREAL_FW_STRING` probe, then drains up to 32 reports. -/
def mcuReadAndProcessPackets (glassFirmware : String) (initialized : Bool)
    (now : List Nat) (buffers : List (List Nat)) : GoResult BatchOut :=
  match getCommand glassFirmware .CMD_GET_NREAL_FW_STRING with
  | none => .panic
  | some probe => processBuffers (probe.ctype, probe.cid) initialized now 32 buffers

/-- One `select` outcome inside `executeAndWaitForResponse`: either a
packet arrives on the response channel (its command bytes and payload), or
the 1-second timer fires. -/
inductive WaitEvent where
  | response (ctype cid : Nat) (payload : Option (List Nat))
  | timeout
  deriving DecidableEq, Repr

inductive ExecError where
  | timedOut
  | exceedRetries
  deriving DecidableEq, Repr

/-- Result of `executeAndWaitForResponse`: the accepted response payload,
or one of the two failure messages. -/
inductive ExecResult where
  | ok (payload : Option (List Nat))
  | err (e : ExecError)
  deriving DecidableEq, Repr

def retryMaxAttempts : Nat := 3

/-- Go `xrealLightMCU.executeAndWaitForResponse`
(src/device/light_mcu.go lines 314-333), after the initial write: the
retry loop consuming `select` outcomes in order.  `none` means the event
list ran out while the loop was still blocked (in the running system the
timer always eventually fires, so adequate event lists never hit it). -/
def execWaitGo (reqType reqId : Nat) : Nat → List WaitEvent → Option ExecResult
  | retry, [] =>
    if retry < retryMaxAttempts then none else some (.err .exceedRetries)
  | retry, ev :: rest =>
    if retry < retryMaxAttempts then
      match ev with
      | .response t i pl =>
        if t = (reqType + 1) % 256 ∧ i = reqId then some (.ok pl)
        else execWaitGo reqType reqId (retry + 1) rest
      | .timeout =>
        if retry < retryMaxAttempts - 1 then
          execWaitGo reqType reqId (retry + 1) rest
        else some (.err .timedOut)
    else some (.err .exceedRetries)

/-- Entry point of the retry loop (`retry := 0`). -/
def execWait (reqType reqId : Nat) (evs : List WaitEvent) :
    Option ExecResult :=
  execWaitGo reqType reqId 0 evs

/-! ### SLAM frame extraction (src/device/light_cameras.go) -/

/-- The read-index update of one de-chunking iteration
(src/device/light_cameras.go lines 353-368): advance past the header byte,
take the distance to the next `0x8000` boundary, clamp to the buffer end. -/
def slamNextIndex (data : List Nat) (readIndex : Nat) : Nat :=
  min (readIndex + data.getD readIndex 0 +
    (0x8000 - (readIndex + data.getD readIndex 0) % 0x8000)) data.length

/-- The de-chunking loop.  `fuel` bounds the iteration count; since every
iteration strictly increases the read index (see the C10 theorem), fuel
`data.length` is always sufficient and the `fuel = 0` clause is never the
reason the loop stops. -/
def dechunkGo (data : List Nat) : Nat → Nat → GoResult (List Nat)
  | _, 0 => .ok []
  | readIndex, fuel + 1 =>
    if readIndex < data.length then
      if data.getD readIndex 0 = 12 then
        match goSlice data (readIndex + data.getD readIndex 0)
            (slamNextIndex data readIndex) with
        | none => .panic
        | some seg =>
          match dechunkGo data (slamNextIndex data readIndex) fuel with
          | .ok tail => .ok (seg ++ tail)
          | r => r
      else dechunkGo data (slamNextIndex data readIndex) fuel
    else .ok []

def dechunk (data : List Nat) : GoResult (List Nat) :=
  dechunkGo data 0 data.length

/-- The row de-interleaving loop (`for i := 0; i < 480; i++`), counting
down the remaining iterations in `fuel` (entered with 480). -/
def deintGo (d : List Nat) : Nat → Nat → GoResult (List Nat × List Nat)
  | _, 0 => .ok ([], [])
  | i, fuel + 1 =>
    match goSlice d (i * 2 * 640) ((i * 2 + 1) * 640),
        goSlice d ((i * 2 + 1) * 640) ((i * 2 + 2) * 640) with
    | some lrow, some rrow =>
      match deintGo d (i + 1) fuel with
      | .ok (l, r) => .ok (lrow ++ l, rrow ++ r)
      | res => res
    | _, _ => .panic

/-- Go `BuildSLAMCameraFrame` (src/device/light_cameras.go lines 343-384):
size/first-byte gate, header stripping, row de-interleave into the
`(left, right)` planes. -/
def buildSLAMCameraFrame (data : List Nat) : GoResult (List Nat × List Nat) :=
  if data.length ≠ 615908 then .error
  else if data.getD 0 0 = 0 then .error
  else
    match dechunk data with
    | .ok cleaned => deintGo cleaned 0 480
    | .error => .error
    | .panic => .panic

/-! ### OV580 IMU decoding (src/device/light_ov580.go) -/

/-- Little-endian unsigned read of `n` bytes at `off` (Go `binary.Read`
with `binary.LittleEndian` consuming the reader sequentially; each field's
`off` is the running reader position). -/
def readLE (data : List Nat) (off : Nat) : Nat → Nat
  | 0 => 0
  | n + 1 => data.getD off 0 + 256 * readLE data (off + 1) n

/-- Reinterpret a `uint32` bit pattern as Go `int32`. -/
def toInt32 (n : Nat) : Int :=
  if n % 4294967296 < 2147483648 then ((n % 4294967296 : Nat) : Int)
  else ((n % 4294967296 : Nat) : Int) - 4294967296

structure Vec3 (α : Type) where
  x : α
  y : α
  z : α
  deriving DecidableEq, Repr

/-- Go `IMUEvent`; `timeSinceBoot` in milliseconds. -/
structure IMUEvent (α : Type) where
  gyroscope : Vec3 α
  accelerometer : Vec3 α
  timeSinceBoot : Nat
  deriving DecidableEq, Repr

/-- Observable effect of one `readAndProcessData` call: an IMU event
handed to the handler, a 128-byte report forwarded to the command-response
channel, or only logging. -/
inductive Ov580Action (α : Type) where
  | emitIMU (e : IMUEvent α)
  | forwardResponse (buffer : List Nat)
  | skip
  deriving DecidableEq, Repr

/-- Go `xrealLightOV580.readAndProcessData`
(src/device/light_ov580.go lines 247-361).  Go `float32` arithmetic is
modelled exactly in a division ring `α` with `math.Pi` abstracted as the
parameter `piVal` (instantiating `α := ℝ`, `piVal := π` gives the spec's
reading; `α := ℚ` keeps everything computable). -/
def ov580ReadAndProcessData {α : Type} [DivisionRing α] (piVal : α)
    (initialized : Bool) (gyroscopeBias accelerometerBias : Vec3 α)
    (buffer : List Nat) : Ov580Action α :=
  if buffer.getD 0 0 = 1 then
    if initialized = false then .skip
    else
      let gyroTimestamp := readLE buffer (0x2a + 2) 8
      let gyroMultiplier : α := (readLE buffer (0x2a + 10) 4 : Nat)
      let gyroDivisor : α := (readLE buffer (0x2a + 14) 4 : Nat)
      let gyroX : α := (toInt32 (readLE buffer (0x2a + 18) 4) : Int)
      let gyroY : α := (toInt32 (readLE buffer (0x2a + 22) 4) : Int)
      let gyroZ : α := (toInt32 (readLE buffer (0x2a + 26) 4) : Int)
      let gyro : Vec3 α :=
        { x := gyroX * gyroMultiplier / gyroDivisor * (piVal / 180) -
            gyroscopeBias.x
          y := -(gyroY * gyroMultiplier / gyroDivisor) * (piVal / 180) +
            gyroscopeBias.y
          z := -(gyroZ * gyroMultiplier / gyroDivisor) * (piVal / 180) +
            gyroscopeBias.z }
      let accelMultiplier : α := (readLE buffer (0x2a + 38) 4 : Nat)
      let accelDivisor : α := (readLE buffer (0x2a + 42) 4 : Nat)
      let accelX : α := (toInt32 (readLE buffer (0x2a + 46) 4) : Int)
      let accelY : α := (toInt32 (readLE buffer (0x2a + 50) 4) : Int)
      let accelZ : α := (toInt32 (readLE buffer (0x2a + 54) 4) : Int)
      let accel : Vec3 α :=
        { x := accelX * accelMultiplier / accelDivisor * (981 / 100) -
            accelerometerBias.x
          y := -(accelY * accelMultiplier / accelDivisor) * (981 / 100) +
            accelerometerBias.y
          z := -(accelZ * accelMultiplier / accelDivisor) * (981 / 100) +
            accelerometerBias.z }
      .emitIMU
        { gyroscope := gyro, accelerometer := accel,
          timeSinceBoot := gyroTimestamp / 1000000 }
  else if buffer.getD 0 0 = 2 then .forwardResponse buffer
  else .skip

/-! ### Device façade firmware accessor (src/unnamed/part_009, light_mcu.go) -/

/-- The MCU-channel state visible to the façade's firmware accessor. -/
structure McuState where
  deviceOpen : Bool
  glassFirmware : List Nat
  initialized : Bool
  deriving DecidableEq, Repr

/-- Go `xrealLight.GetFirmwareVersion` (src/unnamed/part_009 lines 63-68):
nil-check on the MCU device handle, then return the cached string.  Every
Go statement is translated; the body performs no writes and no device
calls, so the returned state is the input state. -/
def xrealLightGetFirmwareVersion (s : McuState) :
    GoResult (List Nat) × McuState :=
  if s.deviceOpen = false then (.error, s) else (.ok s.glassFirmware, s)

/-- The firmware-capture step of `xrealLightMCU.initialize`
(src/device/light_mcu.go lines 101-107): the retry loop stores the payload
of the first successful `CMD_GET_FIRMWARE_VERSION` response, whatever its
contents. -/
def mcuCaptureFirmware (responsePayload : List Nat) (s : McuState) :
    McuState :=
  { s with glassFirmware := responsePayload }

/-! ### Frame dissection lemmas for `deserialize` -/

/-- The classification table of `Deserialize` as a function of the command
type and id bytes (the branch structure of
src/device/device.go lines 208-230). -/
def classifyCommandBytes (t i : Nat) : PacketType :=
  if t = 0x32 ∨ t = 0x34 ∨ t = 0x41 ∨ t = 0x55 then
    if t = 0x41 ∧ i = 0x4b then .HEART_BEAT_RESPONSE else .RESPONSE
  else if t = 0x31 ∨ t = 0x33 ∨ t = 0x40 ∨ t = 0x54 then .COMMAND
  else if t = 0x35 then
    if i = 0x4b ∨ i = 0x4c ∨ i = 0x4d ∨ i = 0x50 ∨ i = 0x53 then .MCU
    else .UNKNOWN
  else .UNKNOWN

/-- The packet type of a successful deserialization. -/
def deserPTypeOf : DeserResult → Option PacketType
  | .ok p => some p.ptype
  | _ => none

/-! ### Result projections used by the theorems -/

/-- Whether `Deserialize` returned without error or panic. -/
def deserAccepted : DeserResult → Bool
  | .ok _ => true
  | _ => false

/-- The successfully produced packet, if any. -/
def deserPacket : DeserResult → Option Packet
  | .ok p => some p
  | _ => none

/-- The non-message fields of a successfully produced packet. -/
def deserCore : DeserResult →
    Option (PacketType × Option Command × Option (List Nat) × Option (List Nat))
  | .ok p => some (p.ptype, p.command, p.payload, p.timestamp)
  | _ => none

/-- Length of a successful byte-list result. -/
def goResultLength : GoResult (List Nat) → Option Nat
  | .ok l => some l.length
  | _ => none

/-- `Deserialize` applied to the bytes produced by `Serialize` (the
round-trip composition of the two codec halves). -/
def roundtripAfterSerialize (now : List Nat) (pkt : Packet) : DeserResult :=
  match serialize pkt with
  | .ok wire => deserialize now wire
  | .error => .fail {}
  | .panic => .panic

/-! ### C9 — CRC field independence -/

/-- `classifyParts` on an interior whose final colon-separated field is
`crc`, re-expressed over the parts of the prefix alone: every consulted
part comes from the prefix, only the raw `message` of the MCU/UNKNOWN
branches retains the full interior. -/
def classifyQ (now : List Nat) (Q : List (List Nat)) (interior : List Nat) :
    DeserResult :=
  match (Q.getD 0 []).head?, (Q.getD 1 []).head? with
  | some t, some i =>
    let cmd : Command := { ctype := t, cid := i }
    let payload := Q.getD 2 []
    let ts := Q.getD (Q.length - 1) []
    if t = 0x32 ∨ t = 0x34 ∨ t = 0x41 ∨ t = 0x55 then
      if t = 0x41 ∧ i = 0x4b then
        .ok { ptype := .HEART_BEAT_RESPONSE, command := some cmd,
              payload := some payload, timestamp := some ts }
      else
        .ok { ptype := .RESPONSE, command := some cmd,
              payload := some payload, timestamp := some ts }
    else if t = 0x31 ∨ t = 0x33 ∨ t = 0x40 ∨ t = 0x54 then
      .ok { ptype := .COMMAND, command := some cmd,
            payload := some payload, timestamp := some ts }
    else if t = 0x35 then
      if i = 0x4b ∨ i = 0x4c ∨ i = 0x4d ∨ i = 0x50 ∨ i = 0x53 then
        .ok { ptype := .MCU, command := some cmd, payload := some payload,
              message := interior, timestamp := some now }
      else
        .ok { ptype := .UNKNOWN, command := some cmd,
              payload := some payload, message := interior,
              timestamp := some now }
    else
      .ok { ptype := .UNKNOWN, command := some cmd, payload := some payload,
            message := interior, timestamp := some now }
  | _, _ => .panic

/-! ### C5 — response matching and the read-drain batch -/

/-- The `"CAL CRC ERROR"`-style report used in the batch scenarios. -/
def c5CrcFrame : List Nat := [0x43, 0x41, 0x4c]

/-- A heart-beat response report, command bytes (0x41, 0x4b). -/
def c5HbFrame : List Nat :=
  [2, 0x3a, 0x41, 0x3a, 0x4b, 0x3a, 0x20, 0x3a, 0x30, 0x3a, 0x30, 0x30,
   0x30, 0x30, 0x30, 0x30, 0x30, 0x30, 0x3a, 3]

/-- A response report with command bytes (0x34, 0x31), payload `"7"`,
timestamp `"0"` — the successor of a (0x33, 0x31) request. -/
def c5RespFrame : List Nat :=
  [2, 0x3a, 0x34, 0x3a, 0x31, 0x3a, 0x37, 0x3a, 0x30, 0x3a, 0x30, 0x30,
   0x30, 0x30, 0x30, 0x30, 0x30, 0x30, 0x3a, 3]

/-- A response report with command bytes (0x34, 0x56) — the successor of
the drain loop's own `CMD_GET_NREAL_FW_STRING` probe (0x33, 0x56). -/
def c5ProbeEchoFrame : List Nat :=
  [2, 0x3a, 0x34, 0x3a, 0x56, 0x3a, 0x37, 0x3a, 0x30, 0x3a, 0x30, 0x30,
   0x30, 0x30, 0x30, 0x30, 0x30, 0x30, 0x3a, 3]

/-! ### C3 — SLAM de-chunking and de-interleaving -/

/-- The cleaned buffer the de-chunking loop produces from a chunked
layout: the post-header bytes of exactly the 12-header chunks, in order. -/
def chunkClean (chunks : List (List Nat)) : List Nat :=
  (chunks.filterMap
    (fun c => if c.headD 0 = 12 then some (c.drop 12) else none)).flatten

/-- Row `j` (640 bytes) of a cleaned buffer. -/
def rowSlice (d : List Nat) (j : Nat) : List Nat :=
  (d.drop (j * 640)).take 640

/-- The even rows (0, 2, ..., 958) concatenated. -/
def leftPlane (d : List Nat) : List Nat :=
  ((List.range 480).map (fun i => rowSlice d (2 * i))).flatten

/-- The odd rows (1, 3, ..., 959) concatenated. -/
def rightPlane (d : List Nat) : List Nat :=
  ((List.range 480).map (fun i => rowSlice d (2 * i + 1))).flatten

def c3WitnessChunk : List Nat := 12 :: List.replicate 32767 7

def c3WitnessLast : List Nat := 12 :: List.replicate 26083 7

def c3WitnessChunks : List (List Nat) :=
  List.replicate 18 c3WitnessChunk ++ [c3WitnessLast]

/-! ### C7 — OV580 IMU decoding -/

/-- The synthetic 128-byte report of spec §8.9: first byte 0x01,
`gyro_mul = 10` at offset 52, `gyro_div = 1` at 56, `gx = 9` at 60, all
other bytes zero. -/
def c7WitnessBuffer : List Nat :=
  (((List.replicate 128 0).set 0 1).set 52 10).set 56 1 |>.set 60 9

/-! # Theorems -/

theorem pad64_length (l : List Nat) : (pad64 l).length = 64 := by
  simp only [pad64, List.length_append, List.length_take, List.length_replicate]
  omega

theorem pad64_of_length_le (l : List Nat) (h : l.length ≤ 64) :
    pad64 l = l ++ List.replicate (64 - l.length) 0 := by
  simp [pad64, List.take_of_length_le h]

theorem goSplit_ne_nil (sep : Nat) (l : List Nat) : goSplit sep l ≠ [] := by
  induction l with
  | nil => simp [goSplit]
  | cons b rest ih =>
    simp only [goSplit]
    split
    · simp
    · cases h : goSplit sep rest <;> simp

/-- Splitting a separator-free list yields that list as the single part. -/
theorem goSplit_of_not_mem (sep : Nat) (l : List Nat) (h : sep ∉ l) :
    goSplit sep l = [l] := by
  induction l with
  | nil => rfl
  | cons b rest ih =>
    simp only [List.mem_cons, not_or] at h
    have hb : ¬ b = sep := fun h' => h.1 h'.symm
    simp only [goSplit, if_neg hb, ih h.2]

/-- Peeling a separator-free prefix off a split. -/
theorem goSplit_append_cons (sep : Nat) (u rest : List Nat) (hu : sep ∉ u) :
    goSplit sep (u ++ sep :: rest) = u :: goSplit sep rest := by
  induction u with
  | nil => simp [goSplit]
  | cons b u' ih =>
    simp only [List.mem_cons, not_or] at hu
    have hb : ¬ b = sep := fun h' => hu.1 h'.symm
    simp [List.cons_append, goSplit, if_neg hb, List.append_eq, ih hu.2]

/-- Attaching a separator-free tail after a final separator adds one part. -/
theorem goSplit_append_last (sep : Nat) (u v : List Nat) (hv : sep ∉ v) :
    goSplit sep (u ++ sep :: v) = goSplit sep u ++ [v] := by
  induction u with
  | nil => simp [goSplit, goSplit_of_not_mem sep v hv]
  | cons b u' ih =>
    by_cases hb : b = sep
    · subst hb
      simp [List.cons_append, goSplit, List.append_eq, ih]
    · simp only [List.cons_append, goSplit, if_neg hb, List.append_eq, ih]
      cases h : goSplit sep u' with
      | nil => exact absurd h (goSplit_ne_nil sep u')
      | cons p ps => simp [h]

/-! ### Packet data model (src/device/device.go) -/

theorem lastIdx3Aux_of_not_mem (l : List Nat) (h : 3 ∉ l) :
    lastIdx3Aux l = none := by
  induction l with
  | nil => rfl
  | cons b rest ih =>
    simp only [List.mem_cons, not_or] at h
    have hb : ¬ b = 3 := fun h' => h.1 h'.symm
    simp [lastIdx3Aux, ih h.2, hb]

theorem lastIdx3Aux_append (u v : List Nat) (hv : 3 ∉ v) :
    lastIdx3Aux (u ++ 3 :: v) = some u.length := by
  induction u with
  | nil => simp [lastIdx3Aux, lastIdx3Aux_of_not_mem v hv]
  | cons b u' ih => simp [lastIdx3Aux, ih]

/-- For a frame whose final `0x03` marker is followed only by `3`-free
padding, the scan lands exactly on the marker. -/
theorem lastIdx3_append (u v : List Nat) (hv : 3 ∉ v) :
    lastIdx3 (u ++ 3 :: v) = u.length := by
  simp [lastIdx3, lastIdx3Aux_append u v hv]

/-! ### CRC-32 and serialization -/

theorem hex8_length (n : Nat) : (hex8 n).length = 8 := by
  simp [hex8]

theorem hexDigitByte_props (d : Nat) (hd : d < 16) :
    hexDigitByte d ≠ 2 ∧ hexDigitByte d ≠ 3 ∧ hexDigitByte d ≠ 0x3a := by
  unfold hexDigitByte
  split <;> omega

theorem not_mem_hex8 (n : Nat) (b : Nat) (hb : b = 2 ∨ b = 3 ∨ b = 0x3a) :
    b ∉ hex8 n := by
  intro hmem
  simp only [hex8, List.mem_map] at hmem
  obtain ⟨k, -, hk⟩ := hmem
  have := hexDigitByte_props (n / 16 ^ k % 16) (Nat.mod_lt _ (by norm_num))
  rcases hb with h | h | h <;> subst h <;> omega

/-! ### Frame dissection lemmas for `deserialize` -/

theorem getD_append_length (u v : List Nat) (d : Nat) :
    (u ++ v).getD u.length d = v.headD d := by
  induction u with
  | nil => cases v <;> rfl
  | cons a u ih => simpa using ih

/-- Any byte string framed as `0x02 b1 ... bl 0x03 pad` with `3`-free
padding is deserialized by re-slicing out the interior and classifying its
colon-separated parts. -/
theorem deserialize_frame (now : List Nat) (b1 bl : Nat)
    (interior pad : List Nat) (hpad : 3 ∉ pad) :
    deserialize now ([2, b1] ++ interior ++ [bl, 3] ++ pad) =
      classifyParts now interior := by
  have hsplit : ([2, b1] ++ interior ++ [bl, 3] ++ pad : List Nat) =
      ([2, b1] ++ interior ++ [bl]) ++ 3 :: pad := by simp
  have hlen3 : ([2, b1] ++ interior ++ [bl]).length = interior.length + 3 := by
    simp
  have hidx : lastIdx3 ([2, b1] ++ interior ++ [bl, 3] ++ pad) =
      interior.length + 3 := by
    rw [hsplit, lastIdx3_append _ _ hpad, hlen3]
  have hgetD : ([2, b1] ++ interior ++ [bl, 3] ++ pad).getD
      (interior.length + 3) 0 = 3 := by
    rw [hsplit, ← hlen3, getD_append_length]
    rfl
  have htake : ([2, b1] ++ interior ++ [bl, 3] ++ pad).take
      (interior.length + 2) = [2, b1] ++ interior := by
    have h2 : ([2, b1] ++ interior ++ [bl, 3] ++ pad : List Nat) =
        2 :: b1 :: (interior ++ ([bl, 3] ++ pad)) := by simp
    rw [h2, List.take_succ_cons, List.take_succ_cons,
      List.take_left' rfl]
    rfl
  have hslice : goSlice ([2, b1] ++ interior ++ [bl, 3] ++ pad) 2
      (interior.length + 3 - 1) = some interior := by
    unfold goSlice
    rw [if_pos]
    · rw [show interior.length + 3 - 1 = interior.length + 2 from rfl, htake]
      rfl
    · constructor
      · omega
      · simp
  conv_lhs => rw [show ([2, b1] ++ interior ++ [bl, 3] ++ pad : List Nat) =
    2 :: (b1 :: (interior ++ ([bl, 3] ++ pad))) from by simp]
  rw [deserialize]
  have h43 : ¬ (2 : Nat) = 0x43 := by norm_num
  have h22 : ¬ (2 : Nat) ≠ 2 := by norm_num
  rw [if_neg h43, if_neg h22]
  have hback : (2 :: (b1 :: (interior ++ ([bl, 3] ++ pad))) : List Nat) =
      [2, b1] ++ interior ++ [bl, 3] ++ pad := by simp
  rw [hback, hidx]
  simp only [hgetD, hslice, ne_eq, not_true_eq_false, if_false, ite_false]

/-- Classification of a well-formed interior `T ':' I ':' rest`: success,
with the packet type determined by the two command bytes. -/
theorem classifyParts_eval (now : List Nat) (T I : Nat) (rest : List Nat)
    (hT : T ≠ 0x3a) (hI : I ≠ 0x3a)
    (hparts : 3 ≤ (goSplit 0x3a rest).length) :
    deserPTypeOf (classifyParts now ([T, 0x3a, I, 0x3a] ++ rest)) =
      some (classifyCommandBytes T I) := by
  have hsplit : goSplit 0x3a ([T, 0x3a, I, 0x3a] ++ rest) =
      [T] :: [I] :: goSplit 0x3a rest := by
    have h1 : ([T, 0x3a, I, 0x3a] ++ rest : List Nat) =
        [T] ++ 0x3a :: ([I] ++ 0x3a :: rest) := by simp
    rw [h1, goSplit_append_cons _ _ _ (by simpa using fun h => hT h.symm),
      goSplit_append_cons _ _ _ (by simpa using fun h => hI h.symm)]
  simp only [classifyParts, hsplit, List.getD_cons_zero, List.getD_cons_succ,
    List.length_cons, List.head?_cons]
  rw [if_neg (by omega)]
  unfold classifyCommandBytes
  split_ifs <;> simp [deserPTypeOf]

/-! ### C4 — deserialize classification -/

/-- C4: `Deserialize` classifies every report by its first byte and the
command type/id bytes: a leading `'C'` yields a successful `CRC_ERROR`
packet holding the whole string, never touching the CRC field; a leading
0x02 on a well-formed frame (a final 0x03 followed by `3`-free padding and
at least five colon-separated parts) succeeds with the packet type given
by the type byte — 0x32/0x34/0x55 and non-(0x41,0x4b) 0x41 to RESPONSE,
(0x41,0x4b) to HEART_BEAT_RESPONSE, 0x31/0x33/0x40/0x54 to COMMAND, 0x35
to MCU exactly for ids 0x4b/0x4c/0x4d/0x50/0x53 and else UNKNOWN, any
other type byte to UNKNOWN; any other first byte fails with an UNKNOWN
packet recording the raw bytes. -/
theorem c4_deserialize_classification :
    (∀ (now data : List Nat), data.headD 0 = 0x43 →
      deserialize now data = .ok { ptype := .CRC_ERROR, message := data }) ∧
    (∀ (now : List Nat) (b1 bl T I : Nat) (rest pad : List Nat),
      3 ∉ pad → T ≠ 0x3a → I ≠ 0x3a → 3 ≤ (goSplit 0x3a rest).length →
      deserPTypeOf (deserialize now
          ([2, b1] ++ ([T, 0x3a, I, 0x3a] ++ rest) ++ [bl, 3] ++ pad)) =
        some (classifyCommandBytes T I)) ∧
    (∀ (now data : List Nat), data ≠ [] → data.headD 0 ≠ 0x43 →
      data.headD 0 ≠ 2 →
      deserialize now data = .fail { ptype := .UNKNOWN, message := data }) := by
  refine ⟨?_, ?_, ?_⟩
  · intro now data h
    cases data with
    | nil => simp at h
    | cons d0 rest =>
      simp only [List.headD_cons] at h
      simp [deserialize, h]
  · intro now b1 bl T I rest pad hpad hT hI hparts
    rw [deserialize_frame now b1 bl _ pad hpad]
    exact classifyParts_eval now T I rest hT hI hparts
  · intro now data hne h43 h2
    cases data with
    | nil => exact absurd rfl hne
    | cons d0 rest =>
      simp only [List.headD_cons] at h43 h2
      simp [deserialize, h43, h2]

theorem c4_deserialize_classification_witness :
    deserPTypeOf (deserialize [0x30]
        ([2, 0x3a] ++ ([0x31, 0x3a, 0x41, 0x3a] ++
          [0x70, 0x3a, 0x74, 0x3a, 0x63]) ++ [0x3a, 3] ++
          List.replicate 44 0)) = some .COMMAND := by
  refine (c4_deserialize_classification.2.1 [0x30] 0x3a 0x3a 0x31 0x41
    [0x70, 0x3a, 0x74, 0x3a, 0x63] (List.replicate 44 0)
    (by decide) (by decide) (by decide) (by decide)).trans ?_
  decide

/-! ### C1 — serialize/deserialize round trip -/

/-- C1 (amended): for a COMMAND packet whose type byte is one of
0x31/0x33/0x40/0x54, whose id byte is a non-zero byte other than `':'`
(0x3a), whose payload and timestamp are non-empty byte strings free of
`':'`, 0x02 and 0x03, and whose payload+timestamp fit the 64-byte report
(`len(P) + len(TS) ≤ 46`), `Serialize` produces a full 64-byte report and
`Deserialize` of it succeeds, returning a packet equal to the original in
type, command bytes, payload and timestamp, the zero padding past the
trailing 0x03 ignored.  (The claim as frozen omits the id ≠ ':' and the
length bound; the counterexample shows the id case.) -/
theorem c1_serialize_roundtrip (T I : Nat) (P TS msg : List Nat)
    (instr : CommandInstruction) (now : List Nat)
    (hT : T = 0x31 ∨ T = 0x33 ∨ T = 0x40 ∨ T = 0x54)
    (hI0 : I ≠ 0) (hIlt : I < 256) (hIc : I ≠ 0x3a)
    (_hPne : P ≠ []) (_hTSne : TS ≠ [])
    (hP : ∀ b ∈ P, b < 256 ∧ b ≠ 2 ∧ b ≠ 3 ∧ b ≠ 0x3a)
    (hTS : ∀ b ∈ TS, b < 256 ∧ b ≠ 2 ∧ b ≠ 3 ∧ b ≠ 0x3a)
    (hlen : P.length + TS.length ≤ 46) :
    goResultLength (serialize
        { ptype := .COMMAND, command := some ⟨T, I, instr⟩,
          payload := some P, timestamp := some TS, message := msg }) =
      some 64 ∧
    roundtripAfterSerialize now
        { ptype := .COMMAND, command := some ⟨T, I, instr⟩,
          payload := some P, timestamp := some TS, message := msg } =
      .ok { ptype := .COMMAND, command := some ⟨T, I, .CMD_UKNOWN⟩,
            payload := some P, timestamp := some TS } := by
  have hT256 : T < 256 := by rcases hT with rfl | rfl | rfl | rfl <;> norm_num
  have hT0 : T ≠ 0 := by rcases hT with rfl | rfl | rfl | rfl <;> norm_num
  have hTa : T ≠ 0x3a := by rcases hT with rfl | rfl | rfl | rfl <;> norm_num
  have hTnotR : ¬ (T = 0x32 ∨ T = 0x34 ∨ T = 0x41 ∨ T = 0x55) := by
    rcases hT with rfl | rfl | rfl | rfl <;> decide
  have hPa : (0x3a : Nat) ∉ P := fun hm => (hP _ hm).2.2.2 rfl
  have hTSa : (0x3a : Nat) ∉ TS := fun hm => (hTS _ hm).2.2.2 rfl
  set preamble : List Nat :=
    [2, 0x3a, T, 0x3a, I, 0x3a] ++ P ++ [0x3a] ++ TS ++ [0x3a] with hpre
  set H : List Nat := hex8 (crc32 preamble) with hH
  have hHa : (0x3a : Nat) ∉ H := not_mem_hex8 _ _ (by norm_num)
  set content : List Nat := preamble ++ H ++ [0x3a, 3] with hcontent
  have hclen : content.length = 18 + P.length + TS.length := by
    simp [hcontent, hpre, hH, hex8_length]
    omega
  have hser : serialize
      { ptype := .COMMAND, command := some ⟨T, I, instr⟩,
        payload := some P, timestamp := some TS, message := msg } =
      .ok (pad64 content) := by
    simp only [serialize]
    rw [if_neg (by simp)]
    rw [if_neg (by
      simp only [Nat.mod_eq_of_lt hT256, Nat.mod_eq_of_lt hIlt]
      simp [hT0, hI0])]
    simp only [Nat.mod_eq_of_lt hT256, Nat.mod_eq_of_lt hIlt]
    rfl
  have hpad : pad64 content = content ++
      List.replicate (64 - content.length) 0 :=
    pad64_of_length_le content (by omega)
  set interior : List Nat :=
    [T, 0x3a, I, 0x3a] ++ (P ++ 0x3a :: (TS ++ 0x3a :: H)) with hint
  have hframe : content ++ List.replicate (64 - content.length) 0 =
      [2, 0x3a] ++ interior ++ [0x3a, 3] ++
        List.replicate (64 - content.length) 0 := by
    simp [hcontent, hint, hpre]
  have hsplit : goSplit 0x3a interior = [[T], [I], P, TS, H] := by
    have h1 : interior = [T] ++ 0x3a :: ([I] ++ 0x3a ::
        (P ++ 0x3a :: (TS ++ 0x3a :: H))) := by simp [hint]
    rw [h1, goSplit_append_cons _ _ _ (by simpa using fun h => hTa h.symm),
      goSplit_append_cons _ _ _ (by simpa using fun h => hIc h.symm),
      goSplit_append_cons _ _ _ hPa, goSplit_append_cons _ _ _ hTSa,
      goSplit_of_not_mem _ _ hHa]
  have hclass : classifyParts now interior =
      .ok { ptype := .COMMAND, command := some ⟨T, I, .CMD_UKNOWN⟩,
            payload := some P, timestamp := some TS } := by
    simp only [classifyParts, hsplit]
    rw [if_neg (by simp)]
    simp only [List.getD_cons_zero, List.getD_cons_succ, List.head?_cons]
    rw [if_neg hTnotR, if_pos hT]
    rfl
  refine ⟨?_, ?_⟩
  · rw [hser]
    simp [goResultLength, pad64_length]
  · rw [roundtripAfterSerialize, hser]
    rw [hpad, hframe]
    exact (deserialize_frame now 0x3a 0x3a interior
      (List.replicate (64 - content.length) 0) (by simp)).trans hclass

/-- C1 counterexample: the claim as frozen admits the id byte 0x3a (the
`':'` separator), for which `Serialize` succeeds but `Deserialize` of its
output splits the frame into six parts whose second is empty, so the Go
code panics indexing `parts[1][0]` instead of returning the packet. -/
theorem c1_serialize_roundtrip_counterexample :
    serialize
        { ptype := .COMMAND, command := some ⟨0x31, 0x3a, .CMD_UKNOWN⟩,
          payload := some [0x20], timestamp := some [0x30], message := [] } ≠
      .error ∧
    serialize
        { ptype := .COMMAND, command := some ⟨0x31, 0x3a, .CMD_UKNOWN⟩,
          payload := some [0x20], timestamp := some [0x30], message := [] } ≠
      .panic ∧
    roundtripAfterSerialize [0x30]
        { ptype := .COMMAND, command := some ⟨0x31, 0x3a, .CMD_UKNOWN⟩,
          payload := some [0x20], timestamp := some [0x30], message := [] } =
      .panic := by
  refine ⟨by decide, by decide, by decide⟩

theorem c1_serialize_roundtrip_witness :
    roundtripAfterSerialize [0x39]
        { ptype := .COMMAND,
          command := some ⟨0x33, 0x31, .CMD_GET_BRIGHTNESS_LEVEL⟩,
          payload := some [0x20],
          timestamp := some [0x31, 0x38, 0x66, 0x64, 0x33, 0x37, 0x61, 0x36,
            0x31, 0x64, 0x62],
          message := [] } =
      .ok { ptype := .COMMAND, command := some ⟨0x33, 0x31, .CMD_UKNOWN⟩,
            payload := some [0x20],
            timestamp := some [0x31, 0x38, 0x66, 0x64, 0x33, 0x37, 0x61,
              0x36, 0x31, 0x64, 0x62] } :=
  (c1_serialize_roundtrip 0x33 0x31 [0x20]
    [0x31, 0x38, 0x66, 0x64, 0x33, 0x37, 0x61, 0x36, 0x31, 0x64, 0x62] []
    .CMD_GET_BRIGHTNESS_LEVEL [0x39] (by decide) (by decide) (by decide)
    (by decide) (by decide) (by decide) (by decide) (by decide)
    (by decide)).2

/-! ### C9 — CRC field independence -/

theorem getD_append_of_lt {α : Type} (u v : List α) (k : Nat) (d : α)
    (h : k < u.length) : (u ++ v).getD k d = u.getD k d := by
  induction u generalizing k with
  | nil => simp at h
  | cons a u ih =>
    cases k with
    | zero => rfl
    | succ k =>
      simp only [List.length_cons] at h
      simpa using ih k (by omega)

theorem classifyParts_to_classifyQ (now u crc : List Nat)
    (hcrc : 0x3a ∉ crc) (hQ : 4 ≤ (goSplit 0x3a u).length) :
    classifyParts now (u ++ 0x3a :: crc) =
      classifyQ now (goSplit 0x3a u) (u ++ 0x3a :: crc) := by
  have hs : goSplit 0x3a (u ++ 0x3a :: crc) = goSplit 0x3a u ++ [crc] :=
    goSplit_append_last _ _ _ hcrc
  set Q := goSplit 0x3a u with hQdef
  have e0 : (Q ++ [crc]).getD 0 [] = Q.getD 0 [] :=
    getD_append_of_lt _ _ _ _ (by omega)
  have e1 : (Q ++ [crc]).getD 1 [] = Q.getD 1 [] :=
    getD_append_of_lt _ _ _ _ (by omega)
  have e2 : (Q ++ [crc]).getD 2 [] = Q.getD 2 [] :=
    getD_append_of_lt _ _ _ _ (by omega)
  have eL : (Q ++ [crc]).length = Q.length + 1 := by simp
  have eTS : (Q ++ [crc]).getD ((Q ++ [crc]).length - 2) [] =
      Q.getD (Q.length - 1) [] := by
    rw [eL, show Q.length + 1 - 2 = Q.length - 1 from by omega]
    exact getD_append_of_lt _ _ _ _ (by omega)
  simp only [classifyParts, hs, eL]
  rw [if_neg (by omega)]
  simp only [e0, e1, e2]
  rw [show Q.length + 1 - 2 = Q.length - 1 from by omega]
  simp only [classifyQ]
  cases (Q.getD 0 []).head? <;> cases (Q.getD 1 []).head? <;>
    simp only [getD_append_of_lt Q [crc] (Q.length - 1) [] (by omega)]

/-- C9 (amended): two 64-byte frames that agree except in the CRC hex
field (the colon-separated field between the timestamp field and the
trailing 0x03) deserialize with identical success, identical
type/command/payload/timestamp, and — whenever the type byte classifies
the frame as COMMAND, RESPONSE or HEART_BEAT_RESPONSE — wholly identical
packets.  (The claim as frozen fails for MCU and UNKNOWN classifications,
whose `Message` field records the raw interior including the CRC field;
see the counterexample.) -/
theorem c9_crc_field_independence (now : List Nat) (b1 : Nat)
    (u crc1 crc2 pad1 pad2 : List Nat)
    (hc1a : 0x3a ∉ crc1) (hc2a : 0x3a ∉ crc2)
    (hp1 : 3 ∉ pad1) (hp2 : 3 ∉ pad2)
    (hparts : 4 ≤ (goSplit 0x3a u).length)
    (_hlen1 : ([2, b1] ++ (u ++ 0x3a :: crc1) ++ [0x3a, 3] ++ pad1).length = 64)
    (_hlen2 : ([2, b1] ++ (u ++ 0x3a :: crc2) ++ [0x3a, 3] ++ pad2).length = 64) :
    deserAccepted (deserialize now
        ([2, b1] ++ (u ++ 0x3a :: crc1) ++ [0x3a, 3] ++ pad1)) =
      deserAccepted (deserialize now
        ([2, b1] ++ (u ++ 0x3a :: crc2) ++ [0x3a, 3] ++ pad2)) ∧
    deserCore (deserialize now
        ([2, b1] ++ (u ++ 0x3a :: crc1) ++ [0x3a, 3] ++ pad1)) =
      deserCore (deserialize now
        ([2, b1] ++ (u ++ 0x3a :: crc2) ++ [0x3a, 3] ++ pad2)) ∧
    (∀ p, deserialize now
        ([2, b1] ++ (u ++ 0x3a :: crc1) ++ [0x3a, 3] ++ pad1) = .ok p →
      (p.ptype = .COMMAND ∨ p.ptype = .RESPONSE ∨
        p.ptype = .HEART_BEAT_RESPONSE) →
      deserialize now
        ([2, b1] ++ (u ++ 0x3a :: crc2) ++ [0x3a, 3] ++ pad2) = .ok p) := by
  rw [deserialize_frame now b1 0x3a _ pad1 hp1,
    deserialize_frame now b1 0x3a _ pad2 hp2,
    classifyParts_to_classifyQ now u crc1 hc1a hparts,
    classifyParts_to_classifyQ now u crc2 hc2a hparts]
  set Q := goSplit 0x3a u with hQdef
  cases hh0 : (Q.getD 0 []).head? with
  | none =>
    simp only [classifyQ, hh0]
    exact ⟨by trivial, by trivial, fun p hp _ => nomatch hp⟩
  | some t =>
    cases hh1 : (Q.getD 1 []).head? with
    | none =>
      simp only [classifyQ, hh0, hh1]
      exact ⟨by trivial, by trivial, fun p hp _ => nomatch hp⟩
    | some i =>
      simp only [classifyQ, hh0, hh1]
      split_ifs <;> refine ⟨rfl, rfl, ?_⟩ <;> intro p hp hS <;>
        first
          | exact hp
          | (cases hp; rcases hS with h | h | h <;> simp at h)

/-- C9 counterexample: two 64-byte frames identical except in the CRC hex
field, with MCU type bytes (0x35, 0x4b): both deserialize successfully,
but the packets differ — `Message` embeds the interior including the CRC
field — refuting the claim's "identical packets". -/
theorem c9_crc_field_independence_counterexample :
    deserAccepted (deserialize [0x39]
        ([2, 0x3a, 0x35, 0x3a, 0x4b, 0x3a, 0x70, 0x3a, 0x30, 0x3a, 0x30,
          0x30, 0x30, 0x30, 0x30, 0x30, 0x30, 0x30, 0x3a, 3] ++
          List.replicate 44 0)) = true ∧
    deserAccepted (deserialize [0x39]
        ([2, 0x3a, 0x35, 0x3a, 0x4b, 0x3a, 0x70, 0x3a, 0x30, 0x3a, 0x30,
          0x30, 0x30, 0x30, 0x30, 0x30, 0x30, 0x31, 0x3a, 3] ++
          List.replicate 44 0)) = true ∧
    deserialize [0x39]
        ([2, 0x3a, 0x35, 0x3a, 0x4b, 0x3a, 0x70, 0x3a, 0x30, 0x3a, 0x30,
          0x30, 0x30, 0x30, 0x30, 0x30, 0x30, 0x30, 0x3a, 3] ++
          List.replicate 44 0) ≠
      deserialize [0x39]
        ([2, 0x3a, 0x35, 0x3a, 0x4b, 0x3a, 0x70, 0x3a, 0x30, 0x3a, 0x30,
          0x30, 0x30, 0x30, 0x30, 0x30, 0x30, 0x31, 0x3a, 3] ++
          List.replicate 44 0) := by
  refine ⟨by decide, by decide, by decide⟩

theorem c9_crc_field_independence_witness :
    deserCore (deserialize [0x39]
        ([2, 0x3a] ++ ([0x31, 0x3a, 0x41, 0x3a, 0x70, 0x3a, 0x74] ++
          0x3a :: List.replicate 8 0x61) ++ [0x3a, 3] ++
          List.replicate 44 0)) =
      deserCore (deserialize [0x39]
        ([2, 0x3a] ++ ([0x31, 0x3a, 0x41, 0x3a, 0x70, 0x3a, 0x74] ++
          0x3a :: List.replicate 8 0x62) ++ [0x3a, 3] ++
          List.replicate 44 0)) :=
  (c9_crc_field_independence [0x39] 0x3a
    [0x31, 0x3a, 0x41, 0x3a, 0x70, 0x3a, 0x74]
    (List.replicate 8 0x61) (List.replicate 8 0x62)
    (List.replicate 44 0) (List.replicate 44 0)
    (by decide) (by decide) (by decide) (by decide) (by decide)
    (by decide) (by decide)).2.1

/-! ### C5 — response matching and the read-drain batch -/

/-- C5 (amended): `executeAndWaitForResponse` accepts a received response
exactly when its command type is the request's type plus one and its id
matches, returning that payload; a non-matching response is dropped (at
the cost of one attempt); three straight one-second timeouts fail with the
timed-out error; and a read batch of one CRC-error, one heart-beat
response and one RESPONSE matching the outstanding request delivers
exactly that one packet on the response channel — provided the matching
response's command pair is not (0x34, 0x56), the echo of the
`CMD_GET_NREAL_FW_STRING` probe the drain loop itself sends, which the
loop consumes and which stops the batch (see the counterexample). -/
theorem c5_response_matching :
    (∀ (reqType reqId t i retry : Nat) (pl : Option (List Nat))
        (rest : List WaitEvent), retry < retryMaxAttempts →
      execWaitGo reqType reqId retry (.response t i pl :: rest) =
        if t = (reqType + 1) % 256 ∧ i = reqId then some (.ok pl)
        else execWaitGo reqType reqId (retry + 1) rest) ∧
    (∀ reqType reqId : Nat,
      execWait reqType reqId [.timeout, .timeout, .timeout] =
        some (.err .timedOut)) ∧
    (∀ (glassFirmware : String) (initialized : Bool)
        (now b1 b2 b3 : List Nat) (p1 p2 p3 : Packet) (c3 : Command)
        (reqType reqId : Nat),
      deserialize now (pad64 b1) = .ok p1 → p1.ptype = .CRC_ERROR →
      deserialize now (pad64 b2) = .ok p2 →
      p2.ptype = .HEART_BEAT_RESPONSE →
      deserialize now (pad64 b3) = .ok p3 → p3.ptype = .RESPONSE →
      p3.command = some c3 → c3.ctype = (reqType + 1) % 256 →
      c3.cid = reqId → ¬((reqType + 1) % 256 = 0x34 ∧ reqId = 0x56) →
      mcuReadAndProcessPackets glassFirmware initialized now [b1, b2, b3] =
        .ok ⟨[p3], []⟩) := by
  refine ⟨?_, ?_, ?_⟩
  · intro reqType reqId t i retry pl rest hr
    rw [execWaitGo, if_pos hr]
  · intro reqType reqId
    simp [execWait, execWaitGo, retryMaxAttempts]
  · intro glassFirmware initialized now b1 b2 b3 p1 p2 p3 c3 reqType reqId
      h1 hp1 h2 hp2 h3 hp3 hcmd hct hci hne
    show processBuffers (0x33, 0x56) initialized now 32 [b1, b2, b3] =
      .ok ⟨[p3], []⟩
    rw [show (32 : Nat) = 31 + 1 from rfl, processBuffers, h1]
    simp only [hp1]
    rw [if_pos (by simp)]
    rw [show (31 : Nat) = 30 + 1 from rfl, processBuffers, h2]
    simp only [hp2]
    rw [if_pos (by simp)]
    rw [show (30 : Nat) = 29 + 1 from rfl, processBuffers, h3]
    simp only [hp3, hcmd]
    rw [if_neg (by simp)]
    have hprobe : ¬(c3.ctype = (0x33 + 1) % 256 ∧ c3.cid = 0x56) := by
      rw [hct, hci]
      intro hand
      exact hne ⟨by simpa using hand.1, hand.2⟩
    rw [if_neg hprobe, if_pos trivial]
    rfl

/-- C5 counterexample: when the outstanding request is
`CMD_GET_NREAL_FW_STRING` itself, (0x33, 0x56), the batch's matching
RESPONSE (0x34, 0x56) is consumed as the drain loop's own probe echo and
the batch stops — zero values are delivered, not one. -/
theorem c5_response_matching_counterexample :
    deserialize [0x30] (pad64 c5ProbeEchoFrame) =
      .ok { ptype := .RESPONSE, command := some ⟨0x34, 0x56, .CMD_UKNOWN⟩,
            payload := some [0x37], timestamp := some [0x30] } ∧
    mcuReadAndProcessPackets "" true [0x30]
        [c5CrcFrame, c5HbFrame, c5ProbeEchoFrame] = .ok ⟨[], []⟩ := by
  refine ⟨by decide, by decide⟩

theorem c5_response_matching_witness :
    mcuReadAndProcessPackets "" true [0x30]
        [c5CrcFrame, c5HbFrame, c5RespFrame] =
      .ok ⟨[{ ptype := .RESPONSE, command := some ⟨0x34, 0x31, .CMD_UKNOWN⟩,
              payload := some [0x37], timestamp := some [0x30] }], []⟩ :=
  c5_response_matching.2.2 "" true [0x30] c5CrcFrame c5HbFrame c5RespFrame
    { ptype := .CRC_ERROR,
      message := c5CrcFrame ++ List.replicate 61 0 }
    { ptype := .HEART_BEAT_RESPONSE,
      command := some ⟨0x41, 0x4b, .CMD_UKNOWN⟩, payload := some [0x20],
      timestamp := some [0x30] }
    { ptype := .RESPONSE, command := some ⟨0x34, 0x31, .CMD_UKNOWN⟩,
      payload := some [0x37], timestamp := some [0x30] }
    ⟨0x34, 0x31, .CMD_UKNOWN⟩ 0x33 0x31
    (by decide) (by decide) (by decide) (by decide) (by decide) (by decide)
    (by decide) (by decide) (by decide) (by decide)

/-! ### C3 — SLAM de-chunking and de-interleaving -/

theorem dechunkGo_of_ge (data : List Nat) (i fuel : Nat)
    (h : data.length ≤ i) : dechunkGo data i fuel = .ok [] := by
  cases fuel with
  | zero => rfl
  | succ f =>
    rw [dechunkGo, if_neg (by omega)]

theorem chunkClean_cons (c : List Nat) (rest : List (List Nat)) :
    chunkClean (c :: rest) =
      if c.headD 0 = 12 then c.drop 12 ++ chunkClean rest
      else chunkClean rest := by
  unfold chunkClean
  rw [List.filterMap_cons]
  by_cases h : c.headD 0 = 12
  · rw [if_pos h, if_pos h]
    rfl
  · rw [if_neg h, if_neg h]

/-- The de-chunking loop on a buffer laid out as chunks starting at each
multiple of `0x8000` (every chunk but the last full, each header byte
smaller than its chunk): it strips each chunk's header and keeps exactly
the 12-header chunks' bodies. -/
theorem dechunkGo_chunks (chunks : List (List Nat)) :
    ∀ (front : List Nat) (fuel : Nat),
      front.length % 0x8000 = 0 →
      (∀ c ∈ chunks, c.headD 0 < c.length ∧ c.length ≤ 0x8000) →
      (∀ c ∈ chunks.dropLast, c.length = 0x8000) →
      chunks.flatten.length ≤ fuel →
      dechunkGo (front ++ chunks.flatten) front.length fuel =
        .ok (chunkClean chunks) := by
  induction chunks with
  | nil =>
    intro front fuel _ _ _ _
    exact dechunkGo_of_ge _ _ _ (by simp)
  | cons c rest ih =>
    intro front fuel halign hwf hdrop hfuel
    have hc := hwf c (by simp)
    have hclen : 1 ≤ c.length := by omega
    have hflat : ((c :: rest).flatten : List Nat) = c ++ rest.flatten := by
      simp
    cases fuel with
    | zero =>
      rw [hflat, List.length_append] at hfuel
      omega
    | succ f =>
      have hdata : (front ++ (c :: rest).flatten).length =
          front.length + c.length + rest.flatten.length := by
        rw [hflat]
        simp
        omega
      have hhead : (front ++ (c :: rest).flatten).getD front.length 0 =
          c.headD 0 := by
        rw [hflat, getD_append_length]
        cases c with
        | nil => simp at hclen
        | cons a tl => rfl
      have hL : rest ≠ [] → c.length = 0x8000 := by
        intro hne
        exact hdrop c (by rw [List.dropLast_cons_of_ne_nil hne]; simp)
      have hmod : (front.length + c.headD 0) % 0x8000 = c.headD 0 := by
        have hd : c.headD 0 < 0x8000 := by omega
        rw [Nat.add_mod, halign, Nat.zero_add, Nat.mod_mod_of_dvd,
          Nat.mod_eq_of_lt hd]
        exact dvd_refl _
      have hnext : slamNextIndex (front ++ (c :: rest).flatten)
          front.length = front.length + c.length := by
        unfold slamNextIndex
        rw [hhead, hmod, hdata]
        cases rest with
        | nil => simp; omega
        | cons r rs =>
          have h8 : c.length = 0x8000 := hL (by simp)
          omega
      have hrec : dechunkGo (front ++ (c :: rest).flatten)
          (front.length + c.length) f = .ok (chunkClean rest) := by
        cases rest with
        | nil =>
          refine dechunkGo_of_ge _ _ _ ?_
          rw [hdata]
          simp
        | cons r rs =>
          have h8 : c.length = 0x8000 := hL (by simp)
          have hre : front ++ (c :: r :: rs).flatten =
              (front ++ c) ++ (r :: rs).flatten := by
            rw [hflat]
            simp
          have hlen2 : front.length + c.length = (front ++ c).length := by
            simp
          rw [hre, hlen2]
          refine ih (front ++ c) f ?_ ?_ ?_ ?_
          · simp
            omega
          · intro c' hc'
            exact hwf c' (by simp [hc'])
          · intro c' hc'
            refine hdrop c' ?_
            rw [List.dropLast_cons_of_ne_nil (by simp)]
            exact List.mem_cons_of_mem _ hc'
          · rw [hflat] at hfuel
            simp at hfuel ⊢
            omega
      have hslice : goSlice (front ++ (c :: rest).flatten)
          (front.length + c.headD 0) (front.length + c.length) =
          some (c.drop (c.headD 0)) := by
        unfold goSlice
        rw [if_pos (by rw [hdata]; omega)]
        congr 1
        have htk : (front ++ (c :: rest).flatten).take
            (front.length + c.length) = front ++ c := by
          rw [hflat, show front ++ (c ++ rest.flatten) =
            (front ++ c) ++ rest.flatten from by simp,
            show front.length + c.length = (front ++ c).length from by simp,
            List.take_left]
        rw [htk, show front.length + c.headD 0 =
          front.length + c.headD 0 from rfl]
        rw [show (front ++ c : List Nat).drop (front.length + c.headD 0) =
          c.drop (c.headD 0) from by rw [List.drop_append]]
      rw [dechunkGo, if_pos (by rw [hdata]; omega)]
      rw [hhead, hnext]
      by_cases h12 : c.headD 0 = 12
      · rw [if_pos h12, hslice, hrec, chunkClean_cons, if_pos h12, h12]
      · rw [if_neg h12, hrec, chunkClean_cons, if_neg h12]

theorem getD_map_range {α : Type} (f : Nat → α) (n i : Nat) (d : α)
    (h : i < n) : ((List.range n).map f).getD i d = f i := by
  rw [List.getD_eq_getElem?_getD, List.getElem?_map, List.getElem?_range h]
  rfl

/-- The de-interleaving loop, from row counter `i` with `fuel` rows left:
it returns the concatenations of the even and odd 640-byte rows. -/
theorem deintGo_ok (d : List Nat) (k : Nat) :
    ∀ i : Nat, (i + k) * 1280 ≤ d.length →
      deintGo d i k = .ok
        (((List.range k).map (fun j => rowSlice d (2 * (i + j)))).flatten,
         ((List.range k).map
           (fun j => rowSlice d (2 * (i + j) + 1))).flatten) := by
  induction k with
  | zero =>
    intro i _
    simp [deintGo]
  | succ n ih =>
    intro i h
    rw [deintGo]
    have hs1 : goSlice d (i * 2 * 640) ((i * 2 + 1) * 640) =
        some (rowSlice d (2 * i)) := by
      unfold goSlice rowSlice
      rw [if_pos (by constructor <;> omega)]
      rw [List.drop_take, show (i * 2 + 1) * 640 - i * 2 * 640 = 640 from
        by omega, show i * 2 * 640 = 2 * i * 640 from by ring]
    have hs2 : goSlice d ((i * 2 + 1) * 640) ((i * 2 + 2) * 640) =
        some (rowSlice d (2 * i + 1)) := by
      unfold goSlice rowSlice
      rw [if_pos (by constructor <;> omega)]
      rw [List.drop_take, show (i * 2 + 2) * 640 - (i * 2 + 1) * 640 = 640
        from by omega, show (i * 2 + 1) * 640 = (2 * i + 1) * 640 from
        by ring]
    rw [hs1, hs2, ih (i + 1) (by omega)]
    have hm1 : (List.range n).map (fun j => rowSlice d (2 * (i + 1 + j))) =
        (List.range n).map ((fun j => rowSlice d (2 * (i + j))) ∘ Nat.succ) := by
      refine List.map_congr_left fun a _ => ?_
      simp only [Function.comp_apply]
      congr 1
      omega
    have hm2 : (List.range n).map
        (fun j => rowSlice d (2 * (i + 1 + j) + 1)) =
        (List.range n).map
          ((fun j => rowSlice d (2 * (i + j) + 1)) ∘ Nat.succ) := by
      refine List.map_congr_left fun a _ => ?_
      simp only [Function.comp_apply]
      congr 1
      omega
    conv_rhs => rw [List.range_succ_eq_map]
    simp only [List.map_cons, List.flatten_cons, List.map_map, Nat.add_zero]
    rw [← hm1, ← hm2]

/-- Extracting block `i` back out of a concatenation of equal-length
blocks. -/
theorem flatten_blocks_extract {α : Type} (n : Nat) (blocks : List (List α)) :
    ∀ i : Nat, (∀ b ∈ blocks, b.length = n) → i < blocks.length →
      (blocks.flatten.drop (i * n)).take n = blocks.getD i [] := by
  induction blocks with
  | nil =>
    intro i _ h
    simp at h
  | cons b bs ih =>
    intro i hlen hi
    cases i with
    | zero =>
      have hb : b.length = n := hlen b (by simp)
      simp only [List.flatten_cons, Nat.zero_mul, List.drop_zero,
        List.getD_cons_zero]
      rw [List.take_left' hb]
    | succ i =>
      have hb : b.length = n := hlen b (by simp)
      simp only [List.flatten_cons, List.getD_cons_succ]
      rw [show (i + 1) * n = b.length + i * n from by rw [hb]; ring,
        List.drop_append]
      exact ih i (fun b' hb' => hlen b' (by simp [hb'])) (by simpa using hi)

theorem flatten_replicate {α : Type} (n m : Nat) (a : α) :
    (List.replicate n (List.replicate m a)).flatten =
      List.replicate (n * m) a := by
  induction n with
  | zero => simp
  | succ k ih =>
    rw [List.replicate_succ, List.flatten_cons, ih,
      show (k + 1) * m = m + k * m from by ring, List.replicate_add]

theorem filterMap_replicate_of_none {α β : Type} (f : α → Option β) (a : α)
    (n : Nat) (h : f a = none) :
    (List.replicate n a).filterMap f = [] := by
  induction n with
  | zero => rfl
  | succ k ih => rw [List.replicate_succ, List.filterMap_cons, h, ih]

theorem filterMap_replicate_of_some {α β : Type} (f : α → Option β)
    (a : α) (b : β) (n : Nat) (h : f a = some b) :
    (List.replicate n a).filterMap f = List.replicate n b := by
  induction n with
  | zero => rfl
  | succ k ih =>
    rw [List.replicate_succ, List.filterMap_cons, h, ih, List.replicate_succ]

theorem getD_replicate_zero (n a d : Nat) (h : 0 < n) :
    (List.replicate n a).getD 0 d = a := by
  cases n with
  | zero => omega
  | succ k => rw [List.replicate_succ, List.getD_cons_zero]

/-- Length of the flattened 19-chunk layout (18 full chunks + the final
26084-byte chunk). -/
theorem c3_layout_length (first : List (List Nat)) (lastChunk : List Nat)
    (h18 : first.length = 18) (hfull : ∀ c ∈ first, c.length = 0x8000)
    (hlast : lastChunk.length = 26084) :
    (first ++ [lastChunk]).flatten.length = 615908 := by
  have hmap : first.map List.length = List.replicate 18 0x8000 := by
    rw [← h18, ← List.length_map first List.length]
    refine List.eq_replicate_of_mem fun b hb => ?_
    obtain ⟨c, hc, rfl⟩ := List.mem_map.mp hb
    exact hfull c hc
  rw [List.flatten_append, List.length_append, List.length_flatten, hmap]
  simp [hlast, List.sum_replicate]

/-- C3 (amended): `BuildSLAMCameraFrame` rejects any input whose length is
not 615908 or whose first byte is zero; on a buffer laid out as 18 full
`0x8000` chunks plus a final 26084-byte chunk, each chunk starting with
its header byte, the de-chunking pass yields exactly the concatenated
post-header bytes of the 12-header chunks; and whenever that cleaned
buffer holds at least 614400 bytes the function returns the de-interleaved
planes, with left row `i` equal to cleaned row `2i` and right row `i`
equal to cleaned row `2i+1` for every `i < 480`.  (The claim's
unconditional "cleaned buffer of 614400 bytes" does not follow from its
hypotheses — see the counterexample, where every chunk is a discard chunk
and the function panics.) -/
theorem c3_slam_frame :
    (∀ data : List Nat, data.length ≠ 615908 ∨ data.getD 0 0 = 0 →
      buildSLAMCameraFrame data = .error) ∧
    (∀ (first : List (List Nat)) (lastChunk : List Nat),
      first.length = 18 →
      (∀ c ∈ first, c.length = 0x8000) →
      lastChunk.length = 26084 →
      (∀ c ∈ first ++ [lastChunk], c.headD 0 < 256) →
      (first ++ [lastChunk]).flatten.getD 0 0 ≠ 0 →
      dechunk ((first ++ [lastChunk]).flatten) =
        .ok (chunkClean (first ++ [lastChunk])) ∧
      (614400 ≤ (chunkClean (first ++ [lastChunk])).length →
        buildSLAMCameraFrame ((first ++ [lastChunk]).flatten) =
          .ok (leftPlane (chunkClean (first ++ [lastChunk])),
            rightPlane (chunkClean (first ++ [lastChunk]))) ∧
        ∀ i < 480,
          ((leftPlane (chunkClean (first ++ [lastChunk]))).drop
            (i * 640)).take 640 =
            rowSlice (chunkClean (first ++ [lastChunk])) (2 * i) ∧
          ((rightPlane (chunkClean (first ++ [lastChunk]))).drop
            (i * 640)).take 640 =
            rowSlice (chunkClean (first ++ [lastChunk])) (2 * i + 1))) := by
  constructor
  · intro data h
    unfold buildSLAMCameraFrame
    rcases h with h | h
    · rw [if_pos h]
    · by_cases hl : data.length ≠ 615908
      · rw [if_pos hl]
      · rw [if_neg hl, if_pos h]
  · intro first lastChunk h18 hfull hlast hheads h0
    have hflatlen := c3_layout_length first lastChunk h18 hfull hlast
    have hwf : ∀ c ∈ first ++ [lastChunk],
        c.headD 0 < c.length ∧ c.length ≤ 0x8000 := by
      intro c hc
      have hh := hheads c hc
      rcases List.mem_append.mp hc with hc' | hc'
      · have := hfull c hc'
        omega
      · have : c = lastChunk := by simpa using hc'
        subst this
        omega
    have hdrop : ∀ c ∈ (first ++ [lastChunk]).dropLast,
        c.length = 0x8000 := by
      intro c hc
      rw [List.dropLast_concat] at hc
      exact hfull c hc
    have hde : dechunk ((first ++ [lastChunk]).flatten) =
        .ok (chunkClean (first ++ [lastChunk])) := by
      unfold dechunk
      have := dechunkGo_chunks (first ++ [lastChunk]) []
        (first ++ [lastChunk]).flatten.length rfl hwf hdrop le_rfl
      simpa using this
    refine ⟨hde, fun hclean => ?_⟩
    set cleaned := chunkClean (first ++ [lastChunk]) with hcl
    have hrows : ∀ j < 960, (rowSlice cleaned j).length = 640 := by
      intro j hj
      unfold rowSlice
      rw [List.length_take, List.length_drop]
      omega
    have hbuild : buildSLAMCameraFrame ((first ++ [lastChunk]).flatten) =
        .ok (leftPlane cleaned, rightPlane cleaned) := by
      unfold buildSLAMCameraFrame
      rw [if_neg (by omega), if_neg h0, hde]
      show deintGo cleaned 0 480 = .ok (leftPlane cleaned, rightPlane cleaned)
      rw [deintGo_ok cleaned 480 0 (by omega)]
      unfold leftPlane rightPlane
      simp
    refine ⟨hbuild, fun i hi => ?_⟩
    constructor
    · unfold leftPlane
      rw [flatten_blocks_extract 640 _ i ?_ (by simpa using hi),
        getD_map_range _ _ _ _ hi]
      intro b hb
      obtain ⟨j, hj, rfl⟩ := List.mem_map.mp hb
      exact hrows _ (by simp at hj; omega)
    · unfold rightPlane
      rw [flatten_blocks_extract 640 _ i ?_ (by simpa using hi),
        getD_map_range _ _ _ _ hi]
      intro b hb
      obtain ⟨j, hj, rfl⟩ := List.mem_map.mp hb
      exact hrows _ (by simp at hj; omega)

/-- Sum of a constant list of naturals. -/
theorem sum_replicate_nat (n a : Nat) : (List.replicate n a).sum = n * a := by
  induction n with
  | zero => exact (Nat.zero_mul a).symm
  | succ k ih =>
    rw [List.replicate_succ, List.sum_cons, ih, Nat.succ_mul, Nat.add_comm]

/-- On an empty cleaned buffer the de-interleave loop's first left-row
slice is out of bounds, so the loop panics at once. -/
theorem deintGo_nil (i fuel : Nat) : deintGo [] i (fuel + 1) = .panic := by
  have h1 : goSlice [] (i * 2 * 640) ((i * 2 + 1) * 640) = none := by
    unfold goSlice
    rw [if_neg]
    intro h
    have h2 := h.2
    rw [List.length_nil] at h2
    omega
  rw [deintGo, h1]

/-- C3 counterexample: a 615908-byte buffer that satisfies the claim's
layout hypotheses but where every chunk carries a 32-byte (discard)
header.  The cleaned buffer is empty, not 614400 bytes, and the
de-interleave loop's very first slice `data[0:640]` panics instead of
returning planes. -/
theorem c3_slam_frame_counterexample :
    buildSLAMCameraFrame (List.replicate 615908 32) = .panic := by
  have hchunks : (List.replicate 615908 (32 : Nat)) =
      (List.replicate 18 (List.replicate 0x8000 (32 : Nat)) ++
        [List.replicate 26084 (32 : Nat)]).flatten := by
    rw [List.flatten_append, flatten_replicate]
    simp only [List.flatten_cons, List.flatten_nil, List.append_nil]
    rw [← List.replicate_add]
  have hhead32 : ∀ n : Nat, 0 < n →
      (List.replicate n (32 : Nat)).headD 0 = 32 := by
    intro n hn
    cases n with
    | zero => omega
    | succ k => rw [List.replicate_succ]; rfl
  have hclean : chunkClean (List.replicate 18
      (List.replicate 0x8000 (32 : Nat)) ++
      [List.replicate 26084 (32 : Nat)]) = [] := by
    unfold chunkClean
    rw [List.filterMap_append,
      filterMap_replicate_of_none _ _ _
        (by rw [if_neg (by rw [hhead32 0x8000 (by norm_num)]; norm_num)]),
      List.filterMap_cons,
      if_neg (by rw [hhead32 26084 (by norm_num)]; norm_num)]
    rfl
  have hde : dechunk (List.replicate 615908 (32 : Nat)) = .ok [] := by
    rw [hchunks]
    unfold dechunk
    have hwf : ∀ c ∈ List.replicate 18 (List.replicate 0x8000 (32 : Nat)) ++
        [List.replicate 26084 (32 : Nat)],
        c.headD 0 < c.length ∧ c.length ≤ 0x8000 := by
      intro c hc
      rcases List.mem_append.mp hc with hc' | hc'
      · rw [List.eq_of_mem_replicate hc', hhead32 0x8000 (by norm_num),
          List.length_replicate]
        omega
      · rw [List.mem_singleton.mp hc', hhead32 26084 (by norm_num),
          List.length_replicate]
        omega
    have hdrop : ∀ c ∈ (List.replicate 18
        (List.replicate 0x8000 (32 : Nat)) ++
        [List.replicate 26084 (32 : Nat)]).dropLast, c.length = 0x8000 := by
      intro c hc
      rw [List.dropLast_concat] at hc
      rw [List.eq_of_mem_replicate hc, List.length_replicate]
    have hkey := dechunkGo_chunks _ [] _ rfl hwf hdrop le_rfl
    rw [hclean, List.nil_append, List.length_nil] at hkey
    exact hkey
  have hlen' : ¬((List.replicate 615908 (32 : Nat)).length ≠ 615908) := by
    rw [List.length_replicate]
    exact fun h => h rfl
  have hhd : ¬((List.replicate 615908 (32 : Nat)).getD 0 0 = 0) := by
    rw [getD_replicate_zero _ _ _ (by omega)]
    omega
  unfold buildSLAMCameraFrame
  rw [if_neg hlen', if_neg hhd, hde]
  show deintGo [] 0 480 = .panic
  exact deintGo_nil 0 479

theorem c3_slam_frame_witness :
    buildSLAMCameraFrame c3WitnessChunks.flatten =
      .ok (leftPlane (chunkClean c3WitnessChunks),
        rightPlane (chunkClean c3WitnessChunks)) ∧
    ((leftPlane (chunkClean c3WitnessChunks)).drop (0 * 640)).take 640 =
      rowSlice (chunkClean c3WitnessChunks) (2 * 0) := by
  have hCKdef : c3WitnessChunk = 12 :: List.replicate 32767 7 := rfl
  have hCLdef : c3WitnessLast = 12 :: List.replicate 26083 7 := rfl
  have hCK : c3WitnessChunk.length = 0x8000 := by
    rw [hCKdef, List.length_cons, List.length_replicate]
  have hCL : c3WitnessLast.length = 26084 := by
    rw [hCLdef, List.length_cons, List.length_replicate]
  have hhCK : c3WitnessChunk.headD 0 = 12 := rfl
  have hhCL : c3WitnessLast.headD 0 = 12 := rfl
  have h18 : (List.replicate 18 c3WitnessChunk).length = 18 := by
    rw [List.length_replicate]
  have h2 : ∀ c ∈ List.replicate 18 c3WitnessChunk, c.length = 0x8000 := by
    intro c hc
    rw [List.eq_of_mem_replicate hc, hCK]
  have h4 : ∀ c ∈ List.replicate 18 c3WitnessChunk ++ [c3WitnessLast],
      c.headD 0 < 256 := by
    intro c hc
    rcases List.mem_append.mp hc with hc' | hc'
    · rw [List.eq_of_mem_replicate hc', hhCK]
      omega
    · rw [List.mem_singleton.mp hc', hhCL]
      omega
  have h5 : (List.replicate 18 c3WitnessChunk ++
      [c3WitnessLast]).flatten.getD 0 0 ≠ 0 := by
    rw [show (18 : Nat) = 17 + 1 from rfl, List.replicate_succ,
      List.cons_append, List.flatten_cons, hCKdef, List.cons_append,
      List.getD_cons_zero]
    omega
  have hfCK : (fun c : List Nat =>
      if c.headD 0 = 12 then some (c.drop 12) else none) c3WitnessChunk =
      some (c3WitnessChunk.drop 12) := by
    show (if c3WitnessChunk.headD 0 = 12
      then some (c3WitnessChunk.drop 12) else none) =
      some (c3WitnessChunk.drop 12)
    rw [if_pos hhCK]
  have hfCL : (fun c : List Nat =>
      if c.headD 0 = 12 then some (c.drop 12) else none) c3WitnessLast =
      some (c3WitnessLast.drop 12) := by
    show (if c3WitnessLast.headD 0 = 12
      then some (c3WitnessLast.drop 12) else none) =
      some (c3WitnessLast.drop 12)
    rw [if_pos hhCL]
  have hlastfm : List.filterMap (fun c : List Nat =>
      if c.headD 0 = 12 then some (c.drop 12) else none) [c3WitnessLast] =
      [c3WitnessLast.drop 12] := by
    rw [List.filterMap_cons, if_pos hhCL]
    rfl
  have s1 : List.filterMap (fun c : List Nat =>
      if c.headD 0 = 12 then some (c.drop 12) else none)
      (List.replicate 18 c3WitnessChunk ++ [c3WitnessLast]) =
      List.replicate 18 (c3WitnessChunk.drop 12) ++
        [c3WitnessLast.drop 12] := by
    rw [List.filterMap_append,
      filterMap_replicate_of_some (fun c : List Nat =>
        if c.headD 0 = 12 then some (c.drop 12) else none) c3WitnessChunk
        (c3WitnessChunk.drop 12) 18 hfCK,
      hlastfm]
  have hgen : ∀ x y : List Nat, x.length = 32756 → y.length = 26072 →
      614400 ≤ ((List.replicate 18 x ++ [y]).flatten).length := by
    intro x y hx hy
    rw [List.flatten_append, List.length_append, List.length_flatten,
      List.map_replicate, sum_replicate_nat, List.flatten_cons,
      List.flatten_nil, List.append_nil, hx, hy]
    omega
  have h6 : 614400 ≤ (chunkClean (List.replicate 18 c3WitnessChunk ++
      [c3WitnessLast])).length := by
    have e1 : chunkClean (List.replicate 18 c3WitnessChunk ++
        [c3WitnessLast]) = (List.replicate 18 (c3WitnessChunk.drop 12) ++
        [c3WitnessLast.drop 12]).flatten := by
      unfold chunkClean
      rw [s1]
    rw [e1]
    exact hgen (c3WitnessChunk.drop 12) (c3WitnessLast.drop 12)
      (by rw [List.length_drop, hCK]) (by rw [List.length_drop, hCL])
  have h := (c3_slam_frame.2 (List.replicate 18 c3WitnessChunk)
    c3WitnessLast h18 h2 hCL h4 h5).2 h6
  exact ⟨h.1, (h.2 0 (by omega)).1⟩

/-! ### C6 — command resolution -/

/-- C6: command resolution is extensionally the spec's order — the
firmware-dependent override consulted first, the independent table on a
miss, failure (`none`) when both miss; under firmware
`05.5.08.059_20230518` exactly `CMD_GET_DISPLAY_HDCP`,
`CMD_SET_MAX_BRIGHTNESS_LEVEL` and `CMD_GET_DISPLAY_FIRMWARE` resolve
through the override table, to (0x33,0x48), (0x31,0x32) and (0x33,0x34);
every other instruction resolves identically under all firmware strings. -/
theorem c6_command_resolution :
    (∀ (glassFirmware : String) (instruction : CommandInstruction),
      getCommand glassFirmware instruction =
        specResolveCommand glassFirmware instruction) ∧
    (∀ instruction : CommandInstruction,
      (firmwareDependentCommand FIRMWARE_05_5_08_059 instruction).isSome = true ↔
        instruction = .CMD_GET_DISPLAY_HDCP ∨
        instruction = .CMD_SET_MAX_BRIGHTNESS_LEVEL ∨
        instruction = .CMD_GET_DISPLAY_FIRMWARE) ∧
    firmwareDependentCommand FIRMWARE_05_5_08_059 .CMD_GET_DISPLAY_HDCP =
      some ⟨0x33, 0x48, .CMD_GET_DISPLAY_HDCP⟩ ∧
    firmwareDependentCommand FIRMWARE_05_5_08_059
        .CMD_SET_MAX_BRIGHTNESS_LEVEL =
      some ⟨0x31, 0x32, .CMD_SET_MAX_BRIGHTNESS_LEVEL⟩ ∧
    firmwareDependentCommand FIRMWARE_05_5_08_059 .CMD_GET_DISPLAY_FIRMWARE =
      some ⟨0x33, 0x34, .CMD_GET_DISPLAY_FIRMWARE⟩ ∧
    (∀ (glassFirmware : String) (instruction : CommandInstruction),
      getCommand glassFirmware instruction = none ↔
        getFirmwareIndependentCommand instruction = none ∧
        firmwareDependentCommand glassFirmware instruction = none) ∧
    (∀ (instruction : CommandInstruction) (fw fw' : String),
      instruction ≠ .CMD_GET_DISPLAY_HDCP →
      instruction ≠ .CMD_SET_MAX_BRIGHTNESS_LEVEL →
      instruction ≠ .CMD_GET_DISPLAY_FIRMWARE →
      getCommand fw instruction = getCommand fw' instruction) := by
  refine ⟨?_, ?_, by decide, by decide, by decide, ?_, ?_⟩
  · intro fw instruction
    cases instruction <;>
      simp only [getCommand, specResolveCommand, getFirmwareIndependentCommand,
        firmwareDependentCommand] <;>
      first | rfl | (split_ifs <;> rfl)
  · intro instruction
    cases instruction <;> decide
  · intro fw instruction
    cases instruction <;>
      simp only [getCommand, specResolveCommand, getFirmwareIndependentCommand,
        firmwareDependentCommand] <;>
      simp
  · intro instruction fw fw' h1 h2 h3
    cases instruction <;> first
      | rfl
      | exact absurd rfl h1
      | exact absurd rfl h2
      | exact absurd rfl h3

theorem c6_command_resolution_witness :
    getCommand "a" .CMD_HEART_BEAT = getCommand "b" .CMD_HEART_BEAT :=
  c6_command_resolution.2.2.2.2.2.2 .CMD_HEART_BEAT "a" "b"
    (by decide) (by decide) (by decide)

/-! ### C10 — de-chunking loop progress -/

/-- C10: whenever the de-chunking loop is entered with `readIndex` inside
the buffer, the copied length `0x8000 − ((readIndex + header) % 0x8000)`
is at least 1, and the clamped next index strictly exceeds `readIndex`
while never overrunning the buffer — so the loop consumes the buffer and
terminates even when the header byte is 0 or runs past the end. -/
theorem c10_dechunk_progress (data : List Nat) (readIndex : Nat)
    (h : readIndex < data.length) :
    1 ≤ 0x8000 - (readIndex + data.getD readIndex 0) % 0x8000 ∧
    readIndex < slamNextIndex data readIndex ∧
    slamNextIndex data readIndex ≤ data.length := by
  have hmod : (readIndex + data.getD readIndex 0) % 0x8000 < 0x8000 :=
    Nat.mod_lt _ (by norm_num)
  simp only [slamNextIndex]
  omega

theorem c10_dechunk_progress_witness :
    0 < slamNextIndex [5, 0, 0] 0 ∧ slamNextIndex [5, 0, 0] 0 ≤ 3 :=
  ⟨(c10_dechunk_progress [5, 0, 0] 0 (by decide)).2.1,
   (c10_dechunk_progress [5, 0, 0] 0 (by decide)).2.2⟩

/-! ### C2 — magnetometer event parsing -/

/-- C2: a magnetometer MCU packet with payload `"x-12y34z-560"` fires the
handler exactly once with vector (-12, 34, -560); but payload `"x12y34"`
(missing `z`) does not take the log-and-drop path — the code slices
`reading[yIdx+1:zIdx]` with `zIdx = -1` and panics, where the claim (and
spec §4.3/§8.10) promise a drop that lets the batch continue. -/
theorem c2_magnetometer_parse :
    dispatchMCU
        { ptype := .MCU, command := some ⟨0x35, 0x4d, .CMD_UKNOWN⟩,
          payload := some [0x78, 0x2d, 0x31, 0x32, 0x79, 0x33, 0x34, 0x7a,
            0x2d, 0x35, 0x36, 0x30],
          timestamp := some [0x30] } =
      .ok [.magnetometer (-12) 34 (-560) (some [0x30])] ∧
    dispatchMCU
        { ptype := .MCU, command := some ⟨0x35, 0x4d, .CMD_UKNOWN⟩,
          payload := some [0x78, 0x31, 0x32, 0x79, 0x33, 0x34],
          timestamp := some [0x30] } =
      .panic ∧
    parseMagnetometer [0x78, 0x31, 0x32, 0x79, 0x33, 0x34] = .panic := by
  refine ⟨by decide, by decide, by decide⟩

/-! ### C7 — OV580 IMU decoding -/

/-- C7: for every 128-byte report whose first byte is 0x01 (channel
initialized), the decoder reads the little-endian fields starting at
offset 0x2a and emits exactly one IMU event with
`gyro.x = (gx·mul/div)·(π/180) − bias.x`, the y/z axes negated before bias
correction, acceleration scaled by 9.81 under the same convention, and
`timeSinceBoot` the gyro timestamp divided by 1 000 000 — regardless of
whether the gyro and accelerometer timestamps agree.  Go `float32`
arithmetic is modelled exactly in a division ring with `π` abstract. -/
theorem c7_imu_decode {α : Type} [DivisionRing α] (piVal : α)
    (gyroscopeBias accelerometerBias : Vec3 α) (buffer : List Nat)
    (_hlen : buffer.length = 128) (h0 : buffer.getD 0 0 = 1) :
    ov580ReadAndProcessData piVal true gyroscopeBias accelerometerBias
        buffer =
      .emitIMU
        { gyroscope :=
            { x := ((toInt32 (readLE buffer 60 4) : Int) : α) *
                ((readLE buffer 52 4 : Nat) : α) /
                ((readLE buffer 56 4 : Nat) : α) * (piVal / 180) -
                gyroscopeBias.x
              y := -(((toInt32 (readLE buffer 64 4) : Int) : α) *
                ((readLE buffer 52 4 : Nat) : α) /
                ((readLE buffer 56 4 : Nat) : α)) * (piVal / 180) +
                gyroscopeBias.y
              z := -(((toInt32 (readLE buffer 68 4) : Int) : α) *
                ((readLE buffer 52 4 : Nat) : α) /
                ((readLE buffer 56 4 : Nat) : α)) * (piVal / 180) +
                gyroscopeBias.z }
          accelerometer :=
            { x := ((toInt32 (readLE buffer 88 4) : Int) : α) *
                ((readLE buffer 80 4 : Nat) : α) /
                ((readLE buffer 84 4 : Nat) : α) * (981 / 100) -
                accelerometerBias.x
              y := -(((toInt32 (readLE buffer 92 4) : Int) : α) *
                ((readLE buffer 80 4 : Nat) : α) /
                ((readLE buffer 84 4 : Nat) : α)) * (981 / 100) +
                accelerometerBias.y
              z := -(((toInt32 (readLE buffer 96 4) : Int) : α) *
                ((readLE buffer 80 4 : Nat) : α) /
                ((readLE buffer 84 4 : Nat) : α)) * (981 / 100) +
                accelerometerBias.z }
          timeSinceBoot := readLE buffer 44 8 / 1000000 } := by
  simp only [ov580ReadAndProcessData, h0, if_pos, if_true]
  norm_num

/-- Witness: the synthetic report of spec §8.9 — `gyro_mul = 10`,
`gyro_div = 1`, `gx = 9`, zero biases — decoded over `ℚ` with an abstract
rational standing for `π`, yields `gyro.x = 90·(piVal/180) = piVal/2`. -/
theorem c7_imu_decode_witness :
    ov580ReadAndProcessData (α := ℚ) (355 / 113) true ⟨0, 0, 0⟩ ⟨0, 0, 0⟩
        c7WitnessBuffer =
      .emitIMU
        { gyroscope := { x := 90 * ((355 / 113 : ℚ) / 180), y := 0, z := 0 }
          accelerometer := { x := 0, y := 0, z := 0 }
          timeSinceBoot := 0 } := by
  have h52 : readLE c7WitnessBuffer 52 4 = 10 := by decide
  have h56 : readLE c7WitnessBuffer 56 4 = 1 := by decide
  have h60 : toInt32 (readLE c7WitnessBuffer 60 4) = 9 := by decide
  have h64 : toInt32 (readLE c7WitnessBuffer 64 4) = 0 := by decide
  have h68 : toInt32 (readLE c7WitnessBuffer 68 4) = 0 := by decide
  have h80 : readLE c7WitnessBuffer 80 4 = 0 := by decide
  have h84 : readLE c7WitnessBuffer 84 4 = 0 := by decide
  have h88 : toInt32 (readLE c7WitnessBuffer 88 4) = 0 := by decide
  have h92 : toInt32 (readLE c7WitnessBuffer 92 4) = 0 := by decide
  have h96 : toInt32 (readLE c7WitnessBuffer 96 4) = 0 := by decide
  have h44 : readLE c7WitnessBuffer 44 8 = 0 := by decide
  refine (c7_imu_decode (α := ℚ) (355 / 113) ⟨0, 0, 0⟩ ⟨0, 0, 0⟩
    c7WitnessBuffer (by decide) (by decide)).trans ?_
  rw [h52, h56, h60, h64, h68, h80, h84, h88, h92, h96, h44]
  simp only [Ov580Action.emitIMU.injEq, IMUEvent.mk.injEq, Vec3.mk.injEq]
  norm_num

/-! ### C8 — façade firmware accessor -/

/-- C8 (amended): the façade's `GetFirmwareVersion` is a pure read — with
the device handle present it returns exactly the string captured during
MCU initialization and leaves the channel state unchanged, performing no
device I/O; the returned string equals whatever payload the initialization
response carried, so it is non-empty exactly when that payload was. -/
theorem c8_get_firmware_version :
    (∀ s : McuState, s.deviceOpen = true →
      xrealLightGetFirmwareVersion s = (.ok s.glassFirmware, s)) ∧
    (∀ (s : McuState) (v : List Nat), s.deviceOpen = true →
      xrealLightGetFirmwareVersion (mcuCaptureFirmware v s) =
        (.ok v, mcuCaptureFirmware v s)) := by
  constructor
  · intro s hs
    simp [xrealLightGetFirmwareVersion, hs]
  · intro s v hs
    simp [xrealLightGetFirmwareVersion, mcuCaptureFirmware, hs]

theorem c8_get_firmware_version_witness :
    xrealLightGetFirmwareVersion
        (mcuCaptureFirmware [0x35] ⟨true, [], false⟩) =
      (.ok [0x35], mcuCaptureFirmware [0x35] ⟨true, [], false⟩) :=
  c8_get_firmware_version.2 ⟨true, [], false⟩ [0x35] rfl

/-- C8 counterexample: the claim's "that string is non-empty" does not
hold — a `CMD_GET_FIRMWARE_VERSION` response frame with an empty payload
field deserializes successfully, is accepted by the response matcher, and
the captured empty string is then returned by the façade. -/
theorem c8_counterexample :
    deserialize [0x30]
        (pad64 ([2, 0x3a, 0x34, 0x3a, 0x35, 0x3a, 0x3a, 0x30, 0x3a, 0x30,
          0x30, 0x30, 0x30, 0x30, 0x30, 0x30, 0x30, 0x3a, 3])) =
      .ok { ptype := .RESPONSE, command := some ⟨0x34, 0x35, .CMD_UKNOWN⟩,
            payload := some [], timestamp := some [0x30] } ∧
    execWait 0x33 0x35 [.response 0x34 0x35 (some [])] =
      some (.ok (some ([] : List Nat))) ∧
    (xrealLightGetFirmwareVersion
        (mcuCaptureFirmware [] ⟨true, [0x41], false⟩)).1 = .ok [] ∧
    ([] : List Nat).length = 0 := by
  refine ⟨by decide, by decide, by decide, rfl⟩

end XrealXR
